import Mathlib

/-!
Verification development for the turn-based game engine of the discord_ai_bot
repository.  The JavaScript core (BaseGame, ChessGame, GameManager and the
structured-reply parsers) is shallowly embedded below: free-text oracle replies
are plain strings, the regular expressions of the reply parsers are modelled by
explicit leftmost-match scanners over character lists, dates are abstract Nat
timestamps, and the external oracle service is a parameter giving the reply
text for each prompt and call index of an operation.
-/

set_option maxHeartbeats 1600000

namespace DiscordChess

/-- Model of the JavaScript whitespace class used by the regular expressions
and by trimming: space, tab, newline, carriage return, vertical tab, form feed. -/
def isWsChar (c : Char) : Bool :=
  c = ' ' || c = '\t' || c = '\n' || c = '\r' || c = '\x0B' || c = '\x0C'

/-- Decimal digit test, for the model of parseInt. -/
def isDigitCh (c : Char) : Bool := '0' ≤ c && c ≤ '9'

/-- Model of the regex character class [1-8] used by the FEN decoder and the
move-token classes. -/
def isRank18 (c : Char) : Bool := '1' ≤ c && c ≤ '8'

/-- Model of the class [a-h] under the case-insensitive flag. -/
def isFileCh (c : Char) : Bool := 'a' ≤ c.toLower && c.toLower ≤ 'h'

/-- Model of the class [qrbnQRBN] for the optional promotion letter. -/
def isPromoCh (c : Char) : Bool :=
  c.toLower = 'q' || c.toLower = 'r' || c.toLower = 'b' || c.toLower = 'n'

/-- Case-insensitive literal match at the head of the input; on success returns
the input that remains after the literal. -/
def matchCI : List Char → List Char → Option (List Char)
  | [], rest => some rest
  | _ :: _, [] => none
  | p :: ps, c :: cs => if p.toLower = c.toLower then matchCI ps cs else none

/-- Leftmost-match scan: a JavaScript regex without the g flag tries every start
position from the left and keeps the first position where the whole pattern
matches. -/
def scanFor {α : Type} (f : List Char → Option α) : List Char → Option α
  | [] => f []
  | c :: rest =>
    match f (c :: rest) with
    | some r => some r
    | none => scanFor f rest

/-- Model of String.prototype.split with a single-character separator. -/
def splitOnChar (sep : Char) : List Char → List (List Char)
  | [] => [[]]
  | c :: rest =>
    if c = sep then [] :: splitOnChar sep rest
    else
      match splitOnChar sep rest with
      | [] => [[c]]
      | h :: t => (c :: h) :: t

/-- Model of String.prototype.trim. -/
def trimJS (cs : List Char) : List Char :=
  ((cs.dropWhile isWsChar).reverse.dropWhile isWsChar).reverse

/-- Decimal digit characters of a positive number, most significant first; the
fuel argument bounds the recursion and is always at least the number itself. -/
def natCharsGo : Nat → Nat → List Char
  | 0, _ => []
  | _ + 1, 0 => []
  | fuel + 1, n + 1 => natCharsGo fuel ((n + 1) / 10) ++ [Nat.digitChar ((n + 1) % 10)]

/-- Decimal string of a natural number, as JavaScript number-to-string
conversion produces for a nonnegative integer. -/
def natChars (n : Nat) : List Char :=
  if n = 0 then ['0'] else natCharsGo n n

/-- Numeric value of a run of decimal digit characters. -/
def digitsVal (cs : List Char) : Nat :=
  cs.foldl (fun a c => 10 * a + (c.toNat - 48)) 0

/-- Maximal digit prefix of the remaining input, evaluated to an integer with
the given sign; none when there is no digit, which is parseInt returning NaN. -/
def parseIntCore (sign : Bool) (body : List Char) : Option Int :=
  let ds := body.takeWhile isDigitCh
  if ds.isEmpty then none
  else some (if sign then -(digitsVal ds : Int) else (digitsVal ds : Int))

/-- Model of parseInt(x, 10).  The argument is none when the JavaScript value is
undefined; the result is none when parseInt evaluates to NaN.  parseInt skips
leading whitespace, accepts an optional sign and then reads a maximal digit
prefix. -/
def parseIntJS : Option (List Char) → Option Int
  | none => none
  | some cs =>
    let cs1 := cs.dropWhile isWsChar
    if cs1.head? = some '-' then parseIntCore true cs1.tail
    else if cs1.head? = some '+' then parseIntCore false cs1.tail
    else parseIntCore false cs1

/-- JavaScript string conversion of a numeric game-state field.  The field is
an Option Int because a garbage oracle FEN can store NaN (modelled none) in the
half-move and full-move counters. -/
def numStr : Option Int → List Char
  | none => ['N', 'a', 'N']
  | some i => if i < 0 then '-' :: natChars i.natAbs else natChars i.natAbs

/-- Model of the JavaScript expression (x || d) on an optional string: null,
undefined and the empty string all fall back to the default. -/
def jsOr (o : Option String) (d : String) : String :=
  match o with
  | some s => if s = "" then d else s
  | none => d

/-- Lowercasing of a captured token, modelling String.prototype.toLowerCase on
the ASCII field values used here. -/
def lowerChars (cs : List Char) : List Char := cs.map Char.toLower

def skipWs (cs : List Char) : List Char := cs.dropWhile isWsChar

/-- Model of the fragment (true|false) with the i flag at one position; the
first alternative is tried first and only a prefix match is required. -/
def boolTokenAt (cs : List Char) : Option Bool :=
  match matchCI "true".data cs with
  | some _ => some true
  | none =>
    match matchCI "false".data cs with
    | some _ => some false
    | none => none

/-- Match of LABEL followed by whitespace and a boolean token at one position.
The greedy whitespace run needs no backtracking because neither alternative
starts with a whitespace character. -/
def matchBoolAt (label : List Char) (cs : List Char) : Option Bool := do
  let rest ← matchCI label cs
  boolTokenAt (skipWs rest)

/-- First match of a LABEL: true/false field anywhere in the reply. -/
def findBool (label : List Char) (cs : List Char) : Option Bool :=
  scanFor (matchBoolAt label) cs

/-- Match of the move token class [a-h][1-8][a-h][1-8][qrbnQRBN]? at one
position, returning the captured characters. -/
def moveTokenAt : List Char → Option (List Char)
  | a :: b :: c :: d :: rest =>
    if isFileCh a && isRank18 b && isFileCh c && isRank18 d then
      match rest with
      | e :: _ => if isPromoCh e then some [a, b, c, d, e] else some [a, b, c, d]
      | [] => some [a, b, c, d]
    else none
  | _ => none

def matchMoveAt (label : List Char) (cs : List Char) : Option (List Char) := do
  let rest ← matchCI label cs
  moveTokenAt (skipWs rest)

/-- First match of a LABEL: move-token field anywhere in the reply. -/
def findMove (label : List Char) (cs : List Char) : Option (List Char) :=
  scanFor (matchMoveAt label) cs

/-- Match of the alternation ([a-h][1-8]|ninguno) at one position, returning
the matched text. -/
def posTokenAt (cs : List Char) : Option (List Char) :=
  match cs with
  | a :: b :: _ =>
    if isFileCh a && isRank18 b then some [a, b]
    else
      match matchCI "ninguno".data cs with
      | some _ => some (cs.take 7)
      | none => none
  | _ =>
    match matchCI "ninguno".data cs with
    | some _ => some (cs.take 7)
    | none => none

def matchPosAt (label : List Char) (cs : List Char) : Option (List Char) := do
  let rest ← matchCI label cs
  posTokenAt (skipWs rest)

/-- First match of the POSICION_JAQUE field anywhere in the reply. -/
def findPos (label : List Char) (cs : List Char) : Option (List Char) :=
  scanFor (matchPosAt label) cs

/-- Model of the regex fragment \s*(.+?)(?=\n|$): a greedy whitespace run with
backtracking, then a lazy any-but-newline capture stopped by a newline-or-end
lookahead.  When visible text follows the whitespace run the capture is that
text up to the next newline; when only whitespace remains, backtracking
captures the last whitespace character that is not a newline, if any. -/
def lineCaptureAt (cs : List Char) : Option (List Char) :=
  let r := cs.dropWhile isWsChar
  if r.isEmpty then
    match cs.reverse.dropWhile (fun c => c = '\n') with
    | [] => none
    | c :: _ => some [c]
  else some (r.takeWhile (fun c => c ≠ '\n'))

def matchLineAt (label : List Char) (cs : List Char) : Option (List Char) := do
  let rest ← matchCI label cs
  lineCaptureAt rest

/-- First match of a LABEL: free-text line field anywhere in the reply. -/
def findLine (label : List Char) (cs : List Char) : Option (List Char) :=
  scanFor (matchLineAt label) cs

/-- The two turn values of a session, the strings player1 and player2 in the
source. -/
inductive Turn
  | player1
  | player2
deriving DecidableEq, Repr

/-- The non-null winner values: player1, player2 or draw. -/
inductive GWinner
  | player1
  | player2
  | draw
deriving DecidableEq, Repr

/-- The winner value naming the side whose turn it currently is. -/
def turnWinner : Turn → GWinner
  | Turn.player1 => GWinner.player1
  | Turn.player2 => GWinner.player2

/-- Model of BaseGame.switchTurn on the turn value. -/
def switchTurn : Turn → Turn
  | Turn.player1 => Turn.player2
  | Turn.player2 => Turn.player1

structure Player where
  id : String
  name : String
deriving DecidableEq, Repr

/-- One element of moveHistory.  A surrender entry has no normalizedMove
property in the source; that absence is modelled as none. -/
structure MoveEntry where
  player : String
  move : String
  normalizedMove : Option String
  timestamp : Nat
deriving DecidableEq, Repr

structure CastlingRights where
  whiteKingSide : Bool
  whiteQueenSide : Bool
  blackKingSide : Bool
  blackQueenSide : Bool
deriving DecidableEq, Repr

/-- The chess adapter state initialised by ChessGame.initializeGameState.  The
half-move and full-move counters are Option Int because updateBoardFromFEN
stores the result of parseInt, which is NaN (modelled none) on garbage input. -/
structure ChessState where
  board : List (List Char)
  perspective : String
  lastMove : Option String
  check : Option String
  possibleMoves : List String
  castlingRights : CastlingRights
  enPassantTarget : Option String
  halfMoveClock : Option Int
  fullMoveNumber : Option Int
deriving DecidableEq, Repr

/-- A game session: the BaseGame fields specialised to the chess adapter, whose
state is the only adapter state in the repository. -/
structure GameSession where
  type : String
  player1 : Player
  player2 : Player
  currentTurn : Turn
  winner : Option GWinner
  moveHistory : List MoveEntry
  startTime : Nat
  endTime : Option Nat
  vsAI : Bool
  state : ChessState
deriving DecidableEq, Repr

/-- The result object built by the reply parsers.  It is the union of the keys
of the objects returned by ChessGame.parseMoveResponse and
ChessGame.parseAIResponse; keys a given parser does not set (undefined in the
source) are modelled by none, false or the empty string. -/
structure MoveData where
  valid : Bool
  moveText : Option String
  normalizedMove : Option String
  explanation : String
  reason : String
  isCheck : Bool
  isCheckmate : Bool
  isDraw : Bool
  checkPosition : Option String
  gameOver : Bool
  winner : Option GWinner
  isCapture : Bool
  pieceMovedText : String
  messageIntro : String
  fenResult : Option String
deriving DecidableEq, Repr

/-- Model of ChessGame.parseMoveResponse.  Each field is extracted by the
leftmost match of its labelled regular expression; the method reads
this.currentTurn to name the winner on checkmate. -/
def parseMoveResponse (currentTurn : Turn) (response : String) : MoveData :=
  let cs := response.data
  let validMatch := findBool "MOVIMIENTO_VALIDO:".data cs
  let normalizedMatch := findMove "MOVIMIENTO_NORMALIZADO:".data cs
  let reasonMatch := findLine "RAZON:".data cs
  let checkMatch := findBool "JAQUE:".data cs
  let checkmateMatch := findBool "JAQUE_MATE:".data cs
  let drawMatch := findBool "TABLAS:".data cs
  let checkPositionMatch := findPos "POSICION_JAQUE:".data cs
  let captureMatch := findBool "CAPTURA:".data cs
  let pieceMoved := findLine "PIEZA_MOVIDA:".data cs
  let fenMatch := findLine "FEN_RESULTANTE:".data cs
  let valid := validMatch == some true
  let normalizedMove := normalizedMatch.map (fun t => String.mk (lowerChars t))
  let reason := (reasonMatch.map (fun t => String.mk (trimJS t))).getD "Movimiento inválido"
  let isCheck := checkMatch == some true
  let isCheckmate := checkmateMatch == some true
  let isDraw := drawMatch == some true
  let checkPosition := checkPositionMatch.bind (fun t =>
    let tl := String.mk (lowerChars t)
    if tl = "ninguno" then none else some tl)
  let isCapture := captureMatch == some true
  let pieceMovedText := (pieceMoved.map (fun t => String.mk (trimJS t))).getD ""
  let fenResult := fenMatch.map (fun t => String.mk (trimJS t))
  let gameOver := isCheckmate || isDraw
  let winner : Option GWinner :=
    if isCheckmate then some (turnWinner currentTurn)
    else if isDraw then some GWinner.draw
    else none
  { valid := valid, moveText := none, normalizedMove := normalizedMove,
    explanation := "", reason := reason, isCheck := isCheck,
    isCheckmate := isCheckmate, isDraw := isDraw, checkPosition := checkPosition,
    gameOver := gameOver, winner := winner, isCapture := isCapture,
    pieceMovedText := pieceMovedText, messageIntro := "", fenResult := fenResult }

/-- Model of ChessGame.parseAIResponse.  A reply without a MOVIMIENTO move
token is reported invalid; otherwise the candidate is reported valid on format
alone, with its self-described auxiliary fields carried along. -/
def parseAIResponse (currentTurn : Turn) (response : String) : MoveData :=
  let cs := response.data
  let moveMatch := findMove "MOVIMIENTO:".data cs
  match moveMatch with
  | none =>
    { valid := false, moveText := none, normalizedMove := none, explanation := "",
      reason := "La IA no generó un movimiento válido", isCheck := false,
      isCheckmate := false, isDraw := false, checkPosition := none,
      gameOver := false, winner := none, isCapture := false, pieceMovedText := "",
      messageIntro := "", fenResult := none }
  | some mt =>
    let explanationMatch := findLine "EXPLICACION_BREVE:".data cs
    let checkMatch := findBool "JAQUE:".data cs
    let checkmateMatch := findBool "JAQUE_MATE:".data cs
    let drawMatch := findBool "TABLAS:".data cs
    let checkPositionMatch := findPos "POSICION_JAQUE:".data cs
    let captureMatch := findBool "CAPTURA:".data cs
    let pieceMoved := findLine "PIEZA_MOVIDA:".data cs
    let fenMatch := findLine "FEN_RESULTANTE:".data cs
    let moveText := String.mk (lowerChars mt)
    let explanation := (explanationMatch.map (fun t => String.mk (trimJS t))).getD "Sin explicación"
    let isCheck := checkMatch == some true
    let isCheckmate := checkmateMatch == some true
    let isDraw := drawMatch == some true
    let checkPosition := checkPositionMatch.bind (fun t =>
      let tl := String.mk (lowerChars t)
      if tl = "ninguno" then none else some tl)
    let isCapture := captureMatch == some true
    let pieceMovedText := (pieceMoved.map (fun t => String.mk (trimJS t))).getD ""
    let fenResult := fenMatch.map (fun t => String.mk (trimJS t))
    let gameOver := isCheckmate || isDraw
    let winner : Option GWinner :=
      if isCheckmate then some (turnWinner currentTurn)
      else if isDraw then some GWinner.draw
      else none
    let messageIntro :=
      if isCheckmate then "¡Jaque mate! Mi movimiento final es:"
      else if isCheck then "¡Jaque! He movido:"
      else if isCapture then "He capturado:"
      else "He movido:"
    { valid := true, moveText := some moveText, normalizedMove := some moveText,
      explanation := explanation, reason := "", isCheck := isCheck,
      isCheckmate := isCheckmate, isDraw := isDraw, checkPosition := checkPosition,
      gameOver := gameOver, winner := winner, isCapture := isCapture,
      pieceMovedText := pieceMovedText, messageIntro := messageIntro,
      fenResult := fenResult }

/-- Model of the object spread in generateAIMove, moveResult = spread of the
generation result then the validation result: every key of a
parseMoveResponse object overwrites the generation value, and the keys only
the generation parser sets (moveText, explanation, messageIntro) survive. -/
def mergeMove (g v : MoveData) : MoveData :=
  { v with
    moveText := g.moveText
    explanation := g.explanation
    messageIntro := g.messageIntro }

/-- FEN placement encoding of one board row: runs of blank squares become their
decimal count, any other cell character is emitted as is.  The source iterates
the eight columns of the row with a running empty-square counter and flushes
the counter before each piece and at the end of the row. -/
def encodeRowGo : List Char → Nat → List Char
  | [], 0 => []
  | [], k + 1 => natChars (k + 1)
  | c :: rest, k =>
    if c = ' ' then encodeRowGo rest (k + 1)
    else (if k > 0 then natChars k else []) ++ c :: encodeRowGo rest 0

def encodeRow (row : List Char) : List Char := encodeRowGo row 0

/-- The castling-rights FEN field, KQkq filtered by the four flags, or a dash
when the string would be empty (the || fallback in the source). -/
def castChars (cr : CastlingRights) : List Char :=
  let s := (if cr.whiteKingSide then "K" else "") ++ (if cr.whiteQueenSide then "Q" else "")
    ++ (if cr.blackKingSide then "k" else "") ++ (if cr.blackQueenSide then "q" else "")
  if s = "" then ['-'] else s.data

/-- Join with a separator character, the row separator loop of generateFEN. -/
def intercalateCh (sep : Char) : List (List Char) → List Char
  | [] => []
  | [r] => r
  | r :: rs => r ++ sep :: intercalateCh sep rs

/-- The side-to-move FEN field from currentTurn. -/
def turnChars : Turn → List Char
  | Turn.player1 => ['w']
  | Turn.player2 => ['b']

/-- Model of ChessGame.generateFEN: placement, side to move from currentTurn,
castling rights, en-passant target (with the || dash fallback), half-move clock
and full-move number, space separated. -/
def generateFENChars (s : GameSession) : List Char :=
  intercalateCh '/' (s.state.board.map encodeRow)
    ++ ' ' :: (turnChars s.currentTurn
    ++ ' ' :: (castChars s.state.castlingRights
    ++ ' ' :: ((jsOr s.state.enPassantTarget "-").data
    ++ ' ' :: (numStr s.state.halfMoveClock
    ++ ' ' :: numStr s.state.fullMoveNumber))))

def generateFEN (s : GameSession) : String := String.mk (generateFENChars s)

/-- FEN placement decoding of one row: a digit 1-8 becomes that many blank
squares, any other character is pushed as a piece. -/
def decodeRow : List Char → List Char
  | [] => []
  | c :: rest =>
    (if isRank18 c then List.replicate (c.toNat - 48) ' ' else [c]) ++ decodeRow rest

/-- The decoding loop over the first eight placement rows.  The source indexes
rows 0 through 7, so fewer than eight rows raises a TypeError before any state
is assigned; that exception path is modelled by none. -/
def buildBoard8 (rows : List (List Char)) : Option (List (List Char)) :=
  if 8 ≤ rows.length then some ((rows.take 8).map decodeRow) else none

/-- The board that updateBoardFromFEN leaves in place: the decoded first FEN
component when it has eight rows, the previous board otherwise. -/
def boardAfterFEN (old : List (List Char)) (fen : List Char) : List (List Char) :=
  match buildBoard8 (splitOnChar '/' ((splitOnChar ' ' fen).headD [])) with
  | some nb => nb
  | none => old

/-- Model of ChessGame.updateBoardFromFEN.  The source mutates this.state field
by field inside a try block: when the placement has fewer than eight rows the
exception fires before any assignment; when the castling component is missing
(fewer than three space-separated fields) the board has already been assigned
and the exception fires at castling.includes, leaving a partial update; the
en-passant and counter fields never throw (undefined compares unequal to the
dash and parseInt of undefined is NaN). -/
def updateBoardFromFEN (s : GameSession) (fen : String) : GameSession :=
  let parts := splitOnChar ' ' fen.data
  let rows := splitOnChar '/' (parts.headD [])
  match buildBoard8 rows with
  | none => s
  | some newBoard =>
    match parts[2]? with
    | none => { s with state := { s.state with board := newBoard } }
    | some castling =>
      { s with state := { s.state with
          board := newBoard
          castlingRights :=
            { whiteKingSide := castling.contains 'K'
              whiteQueenSide := castling.contains 'Q'
              blackKingSide := castling.contains 'k'
              blackQueenSide := castling.contains 'q' }
          enPassantTarget :=
            (match parts[3]? with
             | none => none
             | some e => if e ≠ ['-'] then some (String.mk e) else none)
          halfMoveClock := parseIntJS parts[4]?
          fullMoveNumber := parseIntJS parts[5]? } }

/-- Model of ChessGame.applyMove.  On a valid result the board is replaced by
decoding the resulting FEN when that field is present, last-move and
check-square are overwritten, the full-move number is incremented after a
black move, and the winner is recorded when the result says the game is over.
The playerId parameter is unused in the chess implementation, as in the
source. -/
def applyMove (s : GameSession) (mr : MoveData) (_playerId : String) : GameSession :=
  if mr.valid then
    let s1 :=
      match mr.fenResult with
      | some fen => updateBoardFromFEN s fen
      | none => s
    let s2 := { s1 with state := { s1.state with
      lastMove := mr.normalizedMove
      check := mr.checkPosition } }
    let s3 :=
      if s2.currentTurn = Turn.player2 then
        { s2 with state := { s2.state with
            fullMoveNumber := s2.state.fullMoveNumber.map (fun n => n + 1) } }
      else s2
    if mr.gameOver then { s3 with winner := mr.winner } else s3
  else s

/-- The initial chess board of ChessGame.initializeGameState. -/
def initialBoard : List (List Char) :=
  [ ['r', 'n', 'b', 'q', 'k', 'b', 'n', 'r'],
    ['p', 'p', 'p', 'p', 'p', 'p', 'p', 'p'],
    [' ', ' ', ' ', ' ', ' ', ' ', ' ', ' '],
    [' ', ' ', ' ', ' ', ' ', ' ', ' ', ' '],
    [' ', ' ', ' ', ' ', ' ', ' ', ' ', ' '],
    [' ', ' ', ' ', ' ', ' ', ' ', ' ', ' '],
    ['P', 'P', 'P', 'P', 'P', 'P', 'P', 'P'],
    ['R', 'N', 'B', 'Q', 'K', 'B', 'N', 'R'] ]

def initChessState : ChessState :=
  { board := initialBoard
    perspective := "white"
    lastMove := none
    check := none
    possibleMoves := []
    castlingRights :=
      { whiteKingSide := true, whiteQueenSide := true,
        blackKingSide := true, blackQueenSide := true }
    enPassantTarget := none
    halfMoveClock := some 0
    fullMoveNumber := some 1 }

/-- Model of BaseGame.initialize composed with the ChessGame constructor and
initializeGameState: both registered game-type keys construct ChessGame, whose
constructor sets the ajedrez tag. -/
def initGame (player1Id player1Name player2Id player2Name : String)
    (vsAI : Bool) (now : Nat) : GameSession :=
  { type := "ajedrez"
    player1 := { id := player1Id, name := player1Name }
    player2 := { id := player2Id, name := player2Name }
    currentTurn := Turn.player1
    winner := none
    moveHistory := []
    startTime := now
    endTime := none
    vsAI := vsAI
    state := initChessState }

/-- Model of BaseGame.isFinished: the winner field is not null. -/
def isFinished (s : GameSession) : Bool := s.winner.isSome

/-- Model of BaseGame.isPlayerTurn. -/
def isPlayerTurn (s : GameSession) (playerId : String) : Bool :=
  match s.currentTurn with
  | Turn.player1 => playerId == s.player1.id
  | Turn.player2 => playerId == s.player2.id

/-- Model of BaseGame.isAITurn. -/
def isAITurn (s : GameSession) : Bool :=
  s.vsAI && s.currentTurn == Turn.player2

/-- Model of BaseGame.getEndGameMessage. -/
def getEndGameMessage (s : GameSession) : String :=
  if (isFinished s) = false then "El juego aún está en curso."
  else
    match s.winner with
    | some GWinner.player1 => "¡" ++ s.player1.name ++ " ha ganado!"
    | some GWinner.player2 => "¡" ++ s.player2.name ++ " ha ganado!"
    | some GWinner.draw => "¡El juego ha terminado en empate!"
    | none => "El juego ha terminado."

/-- One rejected generation attempt, the objects pushed on historialIntentos. -/
structure RejAttempt where
  moveText : String
  reason : String
deriving DecidableEq, Repr

/-- Model of ChessGame.buildMovePrompt.  The moveHistory text computed by the
source is not interpolated into this template (dead local), so it is omitted
here. -/
def buildMovePrompt (s : GameSession) (playerId : String) (moveText : String) : String :=
  let playerColorEs := if playerId == s.player1.id then "Blancas" else "Negras"
  let currentPlayerName := if playerId == s.player1.id then s.player1.name else s.player2.name
  let fen := generateFEN s
  let turno := match s.currentTurn with | Turn.player1 => "Blancas" | Turn.player2 => "Negras"
  let ultimo := jsOr s.state.lastMove "Ninguno (inicio de partida)"
  s!"\nEres un experto en ajedrez. Estás evaluando un movimiento en una partida de ajedrez.\n\nEstado actual de la partida:\n- FEN: {fen}\n- Turno: {turno}\n- Último movimiento: {ultimo}\n\nEl jugador {currentPlayerName} ({playerColorEs}) quiere hacer el siguiente movimiento:\n\"{moveText}\"\n\nAnaliza si este movimiento es legal según las reglas del ajedrez. Ten en cuenta:\n- La notación puede ser algebraica (e2e4) o en lenguaje natural (e2 hacia e4).\n- Verifica enroques, capturas al paso (en passant) y promociones.\n- Verifica que el rey no quede o esté en jaque (si corresponde).\n\nResponde con el siguiente formato exacto:\n\nMOVIMIENTO_VALIDO: [true/false]\nMOVIMIENTO_NORMALIZADO: [notación algebraica estándar, por ejemplo \"e2e4\" o \"e7e8q\" para promoción]\nRAZON: [razón si es inválido, o descripción del movimiento si es válido]\nJAQUE: [true/false]\nJAQUE_MATE: [true/false]\nTABLAS: [true/false]\nPOSICION_JAQUE: [posición del rey en jaque, por ejemplo \"e1\", o \"ninguno\"]\nCAPTURA: [true/false]\nPIEZA_MOVIDA: [tipo de pieza movida]\nFEN_RESULTANTE: [nueva posición en formato FEN]\n"

/-- One line of the failed-attempt list inside buildAIPrompt. -/
def intentoLine (idx : Nat) (intento : RejAttempt) : String :=
  let n := toString (idx + 1)
  let mtxt := intento.moveText
  let rsn := intento.reason
  s!"- Intento {n}: \"{mtxt}\" - Razón: {rsn}\n"

/-- Model of ChessGame.buildAIPrompt, including the rejected-attempt steering
block when the history is nonempty. -/
def buildAIPrompt (s : GameSession) (historialIntentos : List RejAttempt) : String :=
  let fen := generateFEN s
  let aiColor : String :=
    if s.player2.id == "AI" then
      (match s.currentTurn with | Turn.player2 => "black" | Turn.player1 => "white")
    else "unknown"
  let colorEs := if aiColor == "white" then "Blancas" else "Negras"
  let moveHistory := String.intercalate "\n" (s.moveHistory.map (fun mv =>
    (if mv.player == s.player1.id then "Blancas" else "Negras") ++ ": " ++ mv.move))
  let turno := match s.currentTurn with | Turn.player1 => "Blancas" | Turn.player2 => "Negras"
  let ultimoOponente :=
    match s.moveHistory.getLast? with
    | some mv => mv.move
    | none => "Ninguno (inicio de partida)"
  let histTxt := if moveHistory = "" then "No hay movimientos previos" else moveHistory
  let intentosFallidosMsg :=
    if 0 < historialIntentos.length then
      "\nINTENTOS PREVIOS FALLIDOS (estos movimientos son ILEGALES, NO los repitas):\n"
        ++ String.join (historialIntentos.enum.map (fun p => intentoLine p.1 p.2))
        ++ "\nAsegúrate de generar un movimiento LEGAL que cumpla con las reglas del ajedrez."
    else ""
  s!"\nEres un experto en ajedrez jugando una partida. Estás jugando con las {colorEs}.\n\nEstado actual de la partida:\n- FEN: {fen}\n- Turno: {turno}\n- Último movimiento del oponente: {ultimoOponente}\n\nHistorial de movimientos:\n{histTxt}{intentosFallidosMsg}\n\nGenera tu próximo movimiento. Debes elegir un movimiento LEGAL según las reglas del ajedrez.\nSi es posible, elige un movimiento bueno estratégicamente.\nAsegúrate de que tu movimiento:\n- No deje tu rey en jaque\n- Respete los movimientos legales de cada pieza\n- No intente mover una pieza a través de otras piezas (excepto el caballo)\n- No mueva una pieza a una casilla ocupada por otra pieza del mismo color\n\nResponde con el siguiente formato exacto:\n\nMOVIMIENTO: [tu movimiento en notación algebraica, por ejemplo \"e2e4\" o \"e7e8q\" para promoción]\nEXPLICACION_BREVE: [explicación breve de por qué elegiste este movimiento]\nJAQUE: [true/false]\nJAQUE_MATE: [true/false]\nTABLAS: [true/false]\nPOSICION_JAQUE: [posición del rey en jaque, por ejemplo \"e1\", o \"ninguno\"]\nCAPTURA: [true/false]\nPIEZA_MOVIDA: [tipo de pieza movida]\nFEN_RESULTANTE: [nueva posición en formato FEN]\n"

/-- The outcome record returned by processMove, generateAIMove and surrender.
The human-readable message field of the source is the rendered board text; no
claim concerns that text, so it is not modelled. -/
structure MoveOutcome where
  success : Bool
  gameOver : Bool
deriving DecidableEq, Repr, Inhabited

/-- The external oracle service of one operation: the reply text as a function
of the prompt sent and of the index of the call within the operation. -/
def Oracle : Type := String → Nat → String

/-- Model of BaseGame.processMove.  Guards first (finished game, wrong turn),
then one oracle round-trip through buildMovePrompt and parseMoveResponse; on a
valid reply the move is appended to the history, the adapter state is updated
by applyMove, and the turn flips unless the reply ended the game, in which
case winner and endTime are set. -/
def processMove (s : GameSession) (playerId moveText : String)
    (oracle : Oracle) (now : Nat) : MoveOutcome × GameSession :=
  if isFinished s then ({ success := false, gameOver := true }, s)
  else if (isPlayerTurn s playerId) = false then
    ({ success := false, gameOver := false }, s)
  else
    let prompt := buildMovePrompt s playerId moveText
    let response := oracle prompt 0
    let moveResult := parseMoveResponse s.currentTurn response
    if moveResult.valid then
      let s1 := { s with moveHistory := s.moveHistory ++
        [{ player := playerId, move := moveText,
           normalizedMove := moveResult.normalizedMove, timestamp := now }] }
      let s2 := applyMove s1 moveResult playerId
      let s3 :=
        if moveResult.gameOver = false then { s2 with currentTurn := switchTurn s2.currentTurn }
        else { s2 with winner := moveResult.winner, endTime := some now }
      ({ success := true, gameOver := moveResult.gameOver }, s3)
    else ({ success := false, gameOver := false }, s)

/-- Model of BaseGame.validateAIMove: the candidate text goes through exactly
the human-move path, a buildMovePrompt prompt for player2 parsed by
parseMoveResponse. -/
def validateAIMove (s : GameSession) (moveText : String)
    (oracle : Oracle) (callIdx : Nat) : MoveData :=
  parseMoveResponse s.currentTurn (oracle (buildMovePrompt s s.player2.id moveText) callIdx)

/-- Result of the candidate-generation loop in generateAIMove: the accepted
merged move if any, the number of generation attempts made, the next free call
index and the accumulated rejection history. -/
structure LoopOut where
  found : Option MoveData
  genAttempts : Nat
  nextCall : Nat
  historial : List RejAttempt
deriving Repr

/-- The bounded while loop of generateAIMove.  Each iteration sends one
generation prompt (carrying the rejection history); a reply with a move token
is re-validated through validateAIMove, and only a validation result that is
itself valid ends the loop, merged over the generation result by the object
spread.  Rejections and malformed replies are recorded and the loop continues
while attempts remain. -/
def aiLoop (s : GameSession) (oracle : Oracle) :
    Nat → Nat → List RejAttempt → LoopOut
  | _, 0, historial => { found := none, genAttempts := 0, nextCall := 0, historial := historial }
  | callIdx, fuel + 1, historial =>
    let response := oracle (buildAIPrompt s historial) callIdx
    let g := parseAIResponse s.currentTurn response
    if g.valid then
      let v := validateAIMove s (g.moveText.getD "") oracle (callIdx + 1)
      if v.valid then
        { found := some (mergeMove g v), genAttempts := 1,
          nextCall := callIdx + 2, historial := historial }
      else
        let out := aiLoop s oracle (callIdx + 2) fuel
          (historial ++ [{ moveText := g.moveText.getD "", reason := v.reason }])
        { out with genAttempts := out.genAttempts + 1 }
    else
      let out := aiLoop s oracle (callIdx + 1) fuel
        (historial ++ [{ moveText := "formato_inválido", reason := g.reason }])
      { out with genAttempts := out.genAttempts + 1 }

/-- The attempt bound MAX_INTENTOS of generateAIMove. -/
def MAX_INTENTOS : Nat := 3

/-- Model of BaseGame.generateAIMove.  Outside its guard (a versus-oracle game,
player2 to move, game not finished) it returns null, modelled none, with the
session untouched.  Otherwise the bounded loop runs; only an accepted merged
move mutates the session, with the same application steps as processMove, and
exhaustion returns a failure outcome with the session untouched. -/
def generateAIMove (s : GameSession) (oracle : Oracle) (now : Nat) :
    Option MoveOutcome × GameSession :=
  if !s.vsAI || !(isAITurn s) || isFinished s then (none, s)
  else
    let out := aiLoop s oracle 0 MAX_INTENTOS []
    match out.found with
    | some moveResult =>
      let s1 := { s with moveHistory := s.moveHistory ++
        [{ player := s.player2.id, move := moveResult.moveText.getD "",
           normalizedMove := moveResult.normalizedMove, timestamp := now }] }
      let s2 := applyMove s1 moveResult s.player2.id
      let s3 :=
        if moveResult.gameOver = false then { s2 with currentTurn := switchTurn s2.currentTurn }
        else { s2 with winner := moveResult.winner, endTime := some now }
      (some { success := true, gameOver := moveResult.gameOver }, s3)
    | none => (some { success := false, gameOver := false }, s)

/-- Model of BaseGame.surrender: on an unfinished game a participating player
gets a surrender history entry, the other player as winner and an end time; a
finished game or a non-participant mutates nothing. -/
def surrender (s : GameSession) (playerId : String) (now : Nat) :
    MoveOutcome × GameSession :=
  if isFinished s then ({ success := false, gameOver := true }, s)
  else if playerId ≠ s.player1.id ∧ playerId ≠ s.player2.id then
    ({ success := false, gameOver := false }, s)
  else
    let s1 := { s with moveHistory := s.moveHistory ++
      [({ player := playerId, move := "surrender", normalizedMove := none,
          timestamp := now } : MoveEntry)] }
    let winner := if playerId == s.player1.id then GWinner.player2 else GWinner.player1
    ({ success := true, gameOver := true },
      { s1 with winner := some winner, endTime := some now })

/-- The registered game-type keys of the GAME_TYPES table; both map to the
chess implementation. -/
def GAME_TYPES : List String := ["ajedrez", "chess"]

def toLowerStr (s : String) : String := String.mk (s.data.map Char.toLower)

/-- The opponent argument of startGame: a mentioned user, or none to play
against the oracle. -/
structure Opponent where
  id : String
  username : String
deriving DecidableEq, Repr

inductive StartResult
  | alreadyActive
  | unknownGame
  | ok (game : GameSession)
deriving DecidableEq, Repr

/-- The session registry: the channel-to-session map of GameManager, modelled
as an association list whose first binding for a key is its value. -/
structure GameManager where
  activeSessions : List (String × GameSession)
deriving DecidableEq, Repr

def lookupSession (m : GameManager) (channelId : String) : Option GameSession :=
  (m.activeSessions.find? (fun p => p.1 == channelId)).map (fun p => p.2)

def setSession (m : GameManager) (channelId : String) (g : GameSession) : GameManager :=
  { m with activeSessions := (channelId, g) :: m.activeSessions }

/-- Model of GameManager.saveGameState restricted to its effect on the active
set: the durable write itself is outside the model, and a finished game is
dropped from the active sessions. -/
def saveGameState (m : GameManager) (channelId : String) (g : GameSession) : GameManager :=
  if isFinished g then
    { m with activeSessions := m.activeSessions.filter (fun p => p.1 != channelId) }
  else m

/-- The creation tail of GameManager.startGame, reached when no unfinished
session occupies the channel: unknown game types are rejected, otherwise a
fresh session is initialised, installed and saved. -/
def startGameCreate (m : GameManager) (channelId userId username : String)
    (gameType : String) (opponent : Option Opponent) (now : Nat) :
    StartResult × GameManager :=
  let normalizedType := toLowerStr gameType
  if !(GAME_TYPES.contains normalizedType) then (StartResult.unknownGame, m)
  else
    let playAgainstAI := opponent.isNone
    let opponentId := match opponent with | none => "AI" | some o => o.id
    let opponentName := match opponent with | none => "IA" | some o => o.username
    let game := initGame userId username opponentId opponentName playAgainstAI now
    let m1 := setSession m channelId game
    let m2 := saveGameState m1 channelId game
    (StartResult.ok game, m2)

/-- Model of GameManager.startGame: an unfinished session on the channel fails
with the already-active error before anything else; a finished or absent
session falls through to creation. -/
def startGame (m : GameManager) (channelId userId username : String)
    (gameType : String) (opponent : Option Opponent) (now : Nat) :
    StartResult × GameManager :=
  match lookupSession m channelId with
  | some currentGame =>
    if (isFinished currentGame) = false then (StartResult.alreadyActive, m)
    else startGameCreate m channelId userId username gameType opponent now
  | none => startGameCreate m channelId userId username gameType opponent now

/-- A board cell the FEN encoding round-trips: not a digit 1-8 (those are
empty-square counts in the encoding) and not the row separator.  Blank cells
are allowed; they are encoded as counts.  Every cell updateBoardFromFEN itself
ever writes satisfies this. -/
def wfCell (c : Char) : Bool := !(isRank18 c) && (c != '/')

/-- The en-passant field of a canonical state: absent, or a square text that is
nonempty, not the dash, and without spaces.  Every value the decoder itself
stores satisfies this. -/
def epOk : Option String → Bool
  | none => true
  | some t => t != "" && t != "-" && decide (' ' ∉ t.data)

/-- A canonical chess state as the spec describes it: an eight-by-eight grid of
round-trippable cells, a well-formed en-passant target and numeric clocks.  The
initial state satisfies it, and it delimits the reachable states on which the
encode-decode pair is inverse. -/
def wfState (st : ChessState) : Prop :=
  st.board.length = 8 ∧
  (∀ row ∈ st.board, row.length = 8 ∧ ∀ c ∈ row, wfCell c = true) ∧
  epOk st.enPassantTarget = true ∧
  st.halfMoveClock.isSome = true ∧
  st.fullMoveNumber.isSome = true

instance (st : ChessState) : Decidable (wfState st) := by
  unfold wfState
  infer_instance

/-- Invariant of §3 of the spec: a winner is recorded exactly when an end time
is recorded. -/
def winnerEndInv (s : GameSession) : Prop := s.winner.isSome = s.endTime.isSome

/-! Concrete sessions and oracle scripts used to evaluate the theorems on
specific inputs. -/

/-- A fresh human-versus-human chess session. -/
def sessHuman : GameSession := initGame "u1" "Alice" "u2" "Bob" false 0

/-- A fresh versus-oracle session in which the human already moved: it is
player2's turn, so the oracle-as-player loop is armed. -/
def sessAI : GameSession :=
  { initGame "u1" "Alice" "AI" "IA" true 0 with currentTurn := Turn.player2 }

/-- A finished session: Alice won and the end time is set. -/
def sessDone : GameSession :=
  { initGame "u1" "Alice" "u2" "Bob" false 0 with
    winner := some GWinner.player1, endTime := some 3 }

/-- A validation reply that asserts validity but omits the FEN_RESULTANTE
field. -/
def respNoFen : String :=
  "MOVIMIENTO_VALIDO: true\nMOVIMIENTO_NORMALIZADO: e2e4\nRAZON: ok\nJAQUE: false\nJAQUE_MATE: false\nTABLAS: false\nPOSICION_JAQUE: ninguno\nCAPTURA: false\nPIEZA_MOVIDA: peón"

def oracleNoFen : Oracle := fun _ _ => respNoFen

/-- A well-formed validation reply for e2e4: valid, not terminal, with the
resulting position. -/
def respE2E4 : String :=
  "MOVIMIENTO_VALIDO: true\nMOVIMIENTO_NORMALIZADO: e2e4\nRAZON: Avance de peón\nJAQUE: false\nJAQUE_MATE: false\nTABLAS: false\nPOSICION_JAQUE: ninguno\nCAPTURA: false\nPIEZA_MOVIDA: peón\nFEN_RESULTANTE: rnbqkbnr/pppppppp/8/8/4P3/8/PPPPPPPP/RNBQKBNR b KQkq e3 0 1"

def oracleE2E4 : Oracle := fun _ _ => respE2E4

/-- A generation reply whose self-reported fields claim checkmate: its
termination fields must not be believed. -/
def respGenBrag : String :=
  "MOVIMIENTO: e7e5\nEXPLICACION_BREVE: centro\nJAQUE: true\nJAQUE_MATE: true\nTABLAS: false\nPOSICION_JAQUE: e1\nCAPTURA: true\nPIEZA_MOVIDA: peón\nFEN_RESULTANTE: 8/8/8/8/8/8/8/4k3 w - - 0 99"

/-- The independent validation reply for the same candidate: legal but in no
way terminal, with a different resulting position. -/
def respValSober : String :=
  "MOVIMIENTO_VALIDO: true\nMOVIMIENTO_NORMALIZADO: e7e5\nRAZON: Apertura simétrica\nJAQUE: false\nJAQUE_MATE: false\nTABLAS: false\nPOSICION_JAQUE: ninguno\nCAPTURA: false\nPIEZA_MOVIDA: peón\nFEN_RESULTANTE: rnbqkbnr/pppp1ppp/8/4p3/4P3/8/PPPP1PPP/RNBQKBNR w KQkq e6 0 2"

/-- An oracle script for one oracle-as-player turn: first call returns the
bragging generation reply, the second (validation) call the sober one. -/
def oracleSplitBrain : Oracle := fun _ k => if k == 0 then respGenBrag else respValSober

/-- An oracle that never produces a move token, exhausting the generation
loop. -/
def oracleUseless : Oracle := fun _ _ => "no tengo movimiento"

/-- A registry whose only channel holds a finished session. -/
def mgrDone : GameManager := { activeSessions := [("chan1", sessDone)] }

/-! Decimal strings: the characters produced for a numeric field are digits,
and reading them back recovers the number. -/

theorem digitChar_sub48 (m : Nat) (h : m < 10) : (Nat.digitChar m).toNat - 48 = m := by
  interval_cases m <;> decide

theorem digitChar_isDigit (m : Nat) (h : m < 10) : isDigitCh (Nat.digitChar m) = true := by
  interval_cases m <;> decide

theorem digitsVal_append_digit (xs : List Char) (c : Char) :
    digitsVal (xs ++ [c]) = 10 * digitsVal xs + (c.toNat - 48) := by
  simp [digitsVal, List.foldl_append]

theorem natCharsGo_mem (fuel n : Nat) (c : Char) (h : c ∈ natCharsGo fuel n) :
    isDigitCh c = true := by
  induction fuel generalizing n with
  | zero => simp [natCharsGo] at h
  | succ fuel ih =>
    cases n with
    | zero => simp [natCharsGo] at h
    | succ n =>
      simp only [natCharsGo, List.mem_append, List.mem_singleton] at h
      rcases h with h | h
      · exact ih _ h
      · subst h
        exact digitChar_isDigit _ (Nat.mod_lt _ (by omega))

theorem digitsVal_natCharsGo (fuel n : Nat) (h : n ≤ fuel) :
    digitsVal (natCharsGo fuel n) = n := by
  induction fuel generalizing n with
  | zero =>
    interval_cases n
    simp [natCharsGo, digitsVal]
  | succ fuel ih =>
    cases n with
    | zero => simp [natCharsGo, digitsVal]
    | succ n =>
      rw [natCharsGo, digitsVal_append_digit,
        digitChar_sub48 _ (Nat.mod_lt _ (by omega)),
        ih _ (by
          have := Nat.div_lt_self (Nat.succ_pos n) (by omega : 1 < 10)
          omega)]
      exact Nat.div_add_mod _ _

theorem natChars_mem (n : Nat) (c : Char) (h : c ∈ natChars n) : isDigitCh c = true := by
  unfold natChars at h
  by_cases h0 : n = 0
  · simp [h0] at h
    subst h
    decide
  · simp [h0] at h
    exact natCharsGo_mem _ _ _ h

theorem digitsVal_natChars (n : Nat) : digitsVal (natChars n) = n := by
  unfold natChars
  by_cases h0 : n = 0
  · subst h0
    decide
  · simp only [h0, if_false]
    exact digitsVal_natCharsGo n n le_rfl

theorem natCharsGo_ne_nil (fuel n : Nat) (h1 : 0 < n) (h2 : n ≤ fuel) :
    natCharsGo fuel n ≠ [] := by
  cases fuel with
  | zero => omega
  | succ fuel =>
    cases n with
    | zero => omega
    | succ n => simp [natCharsGo]

theorem natChars_ne_nil (n : Nat) : natChars n ≠ [] := by
  unfold natChars
  by_cases h0 : n = 0
  · simp [h0]
  · simp only [h0, if_false]
    exact natCharsGo_ne_nil n n (by omega) le_rfl

theorem isDigitCh_not_ws (c : Char) (h : isDigitCh c = true) : isWsChar c = false := by
  by_contra hw
  have hw2 : isWsChar c = true := by
    cases hx : isWsChar c
    · exact absurd hx hw
    · rfl
  simp only [isWsChar, Bool.or_eq_true, decide_eq_true_eq] at hw2
  rcases hw2 with ((((h2 | h2) | h2) | h2) | h2) | h2 <;> subst h2 <;>
    exact absurd h (by decide)

theorem isDigitCh_ne (c e : Char) (h : isDigitCh c = true) (he : isDigitCh e = false) :
    c ≠ e := by
  intro hc
  subst hc
  rw [h] at he
  simp at he

theorem takeWhile_all {p : Char → Bool} (l : List Char) (h : ∀ c ∈ l, p c = true) :
    l.takeWhile p = l := by
  induction l with
  | nil => rfl
  | cons c rest ih =>
    rw [List.takeWhile_cons, h c (List.mem_cons_self c rest)]
    simp [ih (fun x hx => h x (List.mem_cons_of_mem c hx))]

theorem parseIntCore_digits (sign : Bool) (ds : List Char) (hne : ds ≠ [])
    (hd : ∀ c ∈ ds, isDigitCh c = true) :
    parseIntCore sign ds =
      some (if sign then -(digitsVal ds : Int) else (digitsVal ds : Int)) := by
  unfold parseIntCore
  rw [takeWhile_all ds hd]
  simp [List.isEmpty_iff, hne]

theorem parseIntJS_digits (ds : List Char) (hne : ds ≠ [])
    (hd : ∀ c ∈ ds, isDigitCh c = true) :
    parseIntJS (some ds) = some (digitsVal ds : Int) := by
  obtain ⟨c, rest, rfl⟩ := List.exists_cons_of_ne_nil hne
  have hc := hd c (List.mem_cons_self c rest)
  have h1 : c ≠ '-' := isDigitCh_ne c '-' hc (by decide)
  have h2 : c ≠ '+' := isDigitCh_ne c '+' hc (by decide)
  simp only [parseIntJS, List.dropWhile_cons, isDigitCh_not_ws c hc, Bool.false_eq_true,
    if_false, List.head?_cons, Option.some.injEq, h1, h2]
  rw [parseIntCore_digits false _ (by simp) hd]
  simp

/-! Split and join: splitting the FEN string on its separators recovers the
components generateFEN concatenated, provided no component contains the
separator. -/

theorem splitOnChar_ne_nil (sep : Char) (cs : List Char) : splitOnChar sep cs ≠ [] := by
  induction cs with
  | nil => simp [splitOnChar]
  | cons c rest ih =>
    simp only [splitOnChar]
    by_cases hc : c = sep
    · simp [hc]
    · simp only [hc, if_false]
      cases hsp : splitOnChar sep rest with
      | nil => simp
      | cons h t => simp

theorem splitOnChar_no_sep (sep : Char) (cs : List Char) (h : sep ∉ cs) :
    splitOnChar sep cs = [cs] := by
  induction cs with
  | nil => rfl
  | cons c rest ih =>
    simp only [List.mem_cons, not_or] at h
    obtain ⟨h1, h2⟩ := h
    have hcs : ¬ (c = sep) := fun e => h1 e.symm
    simp only [splitOnChar, ih h2, hcs, if_false]

theorem splitOnChar_append (sep : Char) (xs ys : List Char) (h : sep ∉ xs) :
    splitOnChar sep (xs ++ sep :: ys) = xs :: splitOnChar sep ys := by
  induction xs with
  | nil => simp [splitOnChar]
  | cons c xs ih =>
    simp only [List.mem_cons, not_or] at h
    obtain ⟨h1, h2⟩ := h
    have hcs : ¬ (c = sep) := fun e => h1 e.symm
    simp only [List.cons_append, splitOnChar, hcs, if_false, List.append_eq, ih h2]

theorem splitOnChar_intercalate (sep : Char) (parts : List (List Char))
    (hne : parts ≠ []) (h : ∀ p ∈ parts, sep ∉ p) :
    splitOnChar sep (intercalateCh sep parts) = parts := by
  induction parts with
  | nil => exact absurd rfl hne
  | cons p ps ih =>
    cases ps with
    | nil => exact splitOnChar_no_sep sep p (h p (by simp))
    | cons q qs =>
      rw [show intercalateCh sep (p :: q :: qs) = p ++ sep :: intercalateCh sep (q :: qs)
        from rfl]
      rw [splitOnChar_append sep p _ (h p (by simp))]
      rw [ih (by simp) (fun x hx => h x (List.mem_cons_of_mem p hx))]

/-! Character classification of the FEN components: the placement encoding of a
well-formed board contains neither spaces nor further separators, so the split
recovers exactly the encoded fields. -/

theorem encodeRowGo_mem (row : List Char) (k : Nat) (c : Char)
    (h : c ∈ encodeRowGo row k) : isDigitCh c = true ∨ (c ∈ row ∧ c ≠ ' ') := by
  induction row generalizing k with
  | nil =>
    cases k with
    | zero => simp [encodeRowGo] at h
    | succ k =>
      simp only [encodeRowGo] at h
      exact Or.inl (natChars_mem _ _ h)
  | cons d rest ih =>
    simp only [encodeRowGo] at h
    by_cases hd : d = ' '
    · rw [if_pos hd] at h
      rcases ih (k + 1) h with h1 | ⟨h2, h3⟩
      · exact Or.inl h1
      · exact Or.inr ⟨List.mem_cons_of_mem d h2, h3⟩
    · rw [if_neg hd] at h
      simp only [List.mem_append, List.mem_cons] at h
      rcases h with h | h | h
      · by_cases hk : k > 0
        · rw [if_pos hk] at h
          exact Or.inl (natChars_mem _ _ h)
        · rw [if_neg hk] at h
          simp at h
      · subst h
        exact Or.inr ⟨List.mem_cons_self _ _, hd⟩
      · rcases ih 0 h with h1 | ⟨h2, h3⟩
        · exact Or.inl h1
        · exact Or.inr ⟨List.mem_cons_of_mem d h2, h3⟩

theorem intercalateCh_mem (sep : Char) (ls : List (List Char)) (c : Char)
    (h : c ∈ intercalateCh sep ls) : c = sep ∨ ∃ l ∈ ls, c ∈ l := by
  induction ls with
  | nil => simp [intercalateCh] at h
  | cons r rs ih =>
    cases rs with
    | nil => exact Or.inr ⟨r, by simp, by simpa [intercalateCh] using h⟩
    | cons q qs =>
      rw [show intercalateCh sep (r :: q :: qs) = r ++ sep :: intercalateCh sep (q :: qs)
        from rfl] at h
      simp only [List.mem_append, List.mem_cons] at h
      rcases h with h | h | h
      · exact Or.inr ⟨r, by simp, h⟩
      · exact Or.inl h
      · rcases ih h with h1 | ⟨l, hl, hcl⟩
        · exact Or.inl h1
        · exact Or.inr ⟨l, List.mem_cons_of_mem r hl, hcl⟩

theorem isDigitCh_ne_of_not_digit (c e : Char) (h : isDigitCh c = true)
    (he : isDigitCh e = false) : c ≠ e := isDigitCh_ne c e h he

theorem encodeRow_no_space (row : List Char) : ' ' ∉ encodeRow row := by
  intro h
  rcases encodeRowGo_mem row 0 ' ' h with h1 | ⟨_, h3⟩
  · exact absurd h1 (by decide)
  · exact h3 rfl

theorem encodeRow_no_slash (row : List Char) (hcell : ∀ c ∈ row, wfCell c = true) :
    '/' ∉ encodeRow row := by
  intro h
  rcases encodeRowGo_mem row 0 '/' h with h1 | ⟨h2, _⟩
  · exact absurd h1 (by decide)
  · have := hcell '/' h2
    exact absurd this (by decide)

theorem castChars_no_space (cr : CastlingRights) : ' ' ∉ castChars cr := by
  rcases cr with ⟨a, b, c, d⟩
  cases a <;> cases b <;> cases c <;> cases d <;> decide

theorem numStr_no_space (o : Option Int) : ' ' ∉ numStr o := by
  intro h
  cases o with
  | none => simp [numStr] at h
  | some i =>
    simp only [numStr] at h
    by_cases hneg : i < 0
    · rw [if_pos hneg] at h
      rcases List.mem_cons.mp h with h1 | h1
      · exact absurd h1 (by decide)
      · exact absurd (natChars_mem _ _ h1) (by decide)
    · rw [if_neg hneg] at h
      exact absurd (natChars_mem _ _ h) (by decide)

/-! Row round trip: decoding the encoded placement of a well-formed row gives
the row back. -/

theorem decodeRow_append (xs ys : List Char) :
    decodeRow (xs ++ ys) = decodeRow xs ++ decodeRow ys := by
  induction xs with
  | nil => simp [decodeRow]
  | cons c rest ih => simp [decodeRow, ih, List.append_assoc]

theorem decodeRow_natChars (k : Nat) (h1 : 1 ≤ k) (h2 : k ≤ 8) :
    decodeRow (natChars k) = List.replicate k ' ' := by
  interval_cases k <;> decide

theorem decodeRow_encodeRowGo (row : List Char) (k : Nat)
    (hcell : ∀ c ∈ row, wfCell c = true) (hlen : k + row.length ≤ 8) :
    decodeRow (encodeRowGo row k) = List.replicate k ' ' ++ row := by
  induction row generalizing k with
  | nil =>
    cases k with
    | zero => simp [encodeRowGo, decodeRow]
    | succ k =>
      simp only [List.length_nil] at hlen
      simp only [encodeRowGo]
      rw [decodeRow_natChars _ (by omega) (by omega)]
      simp
  | cons d rest ih =>
    simp only [List.length_cons] at hlen
    simp only [encodeRowGo]
    have hd := hcell d (List.mem_cons_self d rest)
    by_cases hsp : d = ' '
    · rw [if_pos hsp]
      rw [ih (k + 1) (fun x hx => hcell x (List.mem_cons_of_mem d hx)) (by omega)]
      subst hsp
      rw [List.replicate_succ']
      simp [List.append_assoc]
    · rw [if_neg hsp, decodeRow_append]
      have hflush : decodeRow (if k > 0 then natChars k else []) = List.replicate k ' ' := by
        by_cases hk : k > 0
        · rw [if_pos hk]
          exact decodeRow_natChars k (by omega) (by omega)
        · rw [if_neg hk]
          have : k = 0 := by omega
          subst this
          simp [decodeRow]
      rw [hflush]
      simp only [decodeRow]
      have hrank : isRank18 d = false := by
        simp only [wfCell, Bool.and_eq_true, Bool.not_eq_true'] at hd
        exact hd.1
      rw [hrank]
      rw [ih 0 (fun x hx => hcell x (List.mem_cons_of_mem d hx)) (by omega)]
      simp

theorem decodeRow_encodeRow (row : List Char) (hcell : ∀ c ∈ row, wfCell c = true) :
    row.length ≤ 8 → decodeRow (encodeRow row) = row := by
  intro hlen
  have := decodeRow_encodeRowGo row 0 hcell (by omega)
  simpa [encodeRow] using this

/-- Decoding the castling component written by castChars recovers the four
flags, for each of the sixteen flag combinations. -/
theorem castlingRoundTrip (cr : CastlingRights) :
    ({ whiteKingSide := (castChars cr).contains 'K',
       whiteQueenSide := (castChars cr).contains 'Q',
       blackKingSide := (castChars cr).contains 'k',
       blackQueenSide := (castChars cr).contains 'q' } : CastlingRights) = cr := by
  rcases cr with ⟨a, b, c, d⟩
  cases a <;> cases b <;> cases c <;> cases d <;> decide

theorem parseIntJS_numStr (i : Int) : parseIntJS (some (numStr (some i))) = some i := by
  unfold numStr
  by_cases hneg : i < 0
  · simp only [hneg, if_true]
    simp only [parseIntJS, List.dropWhile_cons, show isWsChar '-' = false by decide,
      Bool.false_eq_true, if_false, List.head?_cons, if_pos rfl, List.tail_cons]
    rw [parseIntCore_digits true _ (natChars_ne_nil _) (fun x hx => natChars_mem _ x hx)]
    simp only [if_true, Option.some.injEq, digitsVal_natChars]
    omega
  · simp only [hneg, if_false]
    rw [parseIntJS_digits _ (natChars_ne_nil _) (fun x hx => natChars_mem _ x hx),
      digitsVal_natChars]
    simp only [Option.some.injEq]
    omega

theorem getElem6_2 {α : Type} (x0 x1 x2 x3 x4 x5 : α) :
    ([x0, x1, x2, x3, x4, x5] : List α)[2]? = some x2 := rfl

theorem getElem6_3 {α : Type} (x0 x1 x2 x3 x4 x5 : α) :
    ([x0, x1, x2, x3, x4, x5] : List α)[3]? = some x3 := rfl

theorem getElem6_4 {α : Type} (x0 x1 x2 x3 x4 x5 : α) :
    ([x0, x1, x2, x3, x4, x5] : List α)[4]? = some x4 := rfl

theorem getElem6_5 {α : Type} (x0 x1 x2 x3 x4 x5 : α) :
    ([x0, x1, x2, x3, x4, x5] : List α)[5]? = some x5 := rfl

/-- C5: for every reachable canonical chess state, decoding the encoded FEN
string yields the state again, where encode is generateFEN and decode is
updateBoardFromFEN.  The decoder never reads the side-to-move field, so the
session turn (which generateFEN encodes from currentTurn) passes through
unchanged and the whole session round-trips. -/
theorem claim_C5_fen_roundtrip (s : GameSession) (h : wfState s.state) :
    updateBoardFromFEN s (generateFEN s) = s := by
  obtain ⟨hlen, hrows, hep, hhm, hfm⟩ := h
  obtain ⟨ty, p1, p2, turn, win, hist, stt, ett, vsai, st⟩ := s
  obtain ⟨board, persp, lm, chk, pmv, cr, ep, hmc, fmc⟩ := st
  simp only at hlen hrows hep hhm hfm
  -- the six space-separated components of the encoded string
  have hplaceSlash : ∀ p ∈ board.map encodeRow, '/' ∉ p := by
    intro p hp
    obtain ⟨row, hrow, rfl⟩ := List.mem_map.mp hp
    exact encodeRow_no_slash row (fun c hc => (hrows row hrow).2 c hc)
  have hmapne : board.map encodeRow ≠ [] := by
    intro e
    rw [List.map_eq_nil_iff] at e
    rw [e] at hlen
    simp at hlen
  have hp1 : ' ' ∉ intercalateCh '/' (board.map encodeRow) := by
    intro hmem
    rcases intercalateCh_mem '/' _ ' ' hmem with h1 | ⟨l, hl, hcl⟩
    · exact absurd h1 (by decide)
    · obtain ⟨row, hrow, rfl⟩ := List.mem_map.mp hl
      exact encodeRow_no_space row hcl
  have hp2 : ' ' ∉ turnChars turn := by
    cases turn <;> decide
  have hp4 : ' ' ∉ (jsOr ep "-").data := by
    cases ep with
    | none => simp [jsOr]
    | some t =>
      simp only [epOk, Bool.and_eq_true, bne_iff_ne, decide_eq_true_eq] at hep
      simp only [jsOr, hep.1.1, if_false]
      exact hep.2
  obtain ⟨hm, hhmv⟩ := Option.isSome_iff_exists.mp hhm
  obtain ⟨fm, hfmv⟩ := Option.isSome_iff_exists.mp hfm
  subst hhmv
  subst hfmv
  have hsplit : splitOnChar ' ' (generateFENChars ⟨ty, p1, p2, turn, win, hist, stt, ett,
      vsai, ⟨board, persp, lm, chk, pmv, cr, ep, some hm, some fm⟩⟩) =
      [intercalateCh '/' (board.map encodeRow), turnChars turn,
       castChars cr, (jsOr ep "-").data, numStr (some hm), numStr (some fm)] := by
    unfold generateFENChars
    dsimp only
    rw [splitOnChar_append _ _ _ hp1, splitOnChar_append _ _ _ hp2,
      splitOnChar_append _ _ _ (castChars_no_space _), splitOnChar_append _ _ _ hp4,
      splitOnChar_append _ _ _ (numStr_no_space _),
      splitOnChar_no_sep _ _ (numStr_no_space _)]
  have hrowsplit : splitOnChar '/' (intercalateCh '/' (board.map encodeRow)) =
      board.map encodeRow :=
    splitOnChar_intercalate '/' _ hmapne hplaceSlash
  have hboard : buildBoard8 (board.map encodeRow) = some board := by
    unfold buildBoard8
    rw [if_pos (by rw [List.length_map, hlen])]
    congr 1
    have htake : (board.map encodeRow).take 8 = board.map encodeRow := by
      apply List.take_of_length_le
      rw [List.length_map, hlen]
    rw [htake, List.map_map]
    have hmapcong : board.map (decodeRow ∘ encodeRow) = board.map id := by
      apply List.map_congr_left
      intro row hrow
      exact decodeRow_encodeRow row (fun c hc => (hrows row hrow).2 c hc)
        (by rw [(hrows row hrow).1])
    rw [hmapcong, List.map_id]
  have hepEq : (if (jsOr ep "-").data ≠ ['-']
      then some (String.mk ((jsOr ep "-").data)) else none) = ep := by
    cases ep with
    | none => simp [jsOr]
    | some t =>
      obtain ⟨l⟩ := t
      simp only [epOk, Bool.and_eq_true, bne_iff_ne, decide_eq_true_eq] at hep
      obtain ⟨⟨hne1, hne2⟩, hns⟩ := hep
      have hld : l ≠ ['-'] := by
        intro e
        exact hne2 (by rw [show ("-" : String) = String.mk ['-'] from rfl, ← e])
      simp only [jsOr, hne1, if_false]
      rw [if_pos hld]
  unfold updateBoardFromFEN generateFEN
  dsimp only
  rw [hsplit]
  dsimp only [List.headD_cons]
  rw [hrowsplit, hboard]
  rw [getElem6_2, getElem6_3, getElem6_4, getElem6_5]
  dsimp only
  rw [castlingRoundTrip cr, hepEq, parseIntJS_numStr hm, parseIntJS_numStr fm]

/-- C5 witness: the initial position is well formed and round-trips through
generateFEN and updateBoardFromFEN. -/
theorem claim_C5_witness :
    wfState sessHuman.state ∧
    updateBoardFromFEN sessHuman (generateFEN sessHuman) = sessHuman :=
  ⟨by decide, claim_C5_fen_roundtrip sessHuman (by decide)⟩

/-! Projection facts about the state-mutation helpers, used to track which
session fields each operation touches. -/

theorem updateBoardFromFEN_board (s : GameSession) (fen : String) :
    (updateBoardFromFEN s fen).state.board = boardAfterFEN s.state.board fen.data := by
  unfold updateBoardFromFEN boardAfterFEN
  dsimp only
  cases buildBoard8 (splitOnChar '/' ((splitOnChar ' ' fen.data).headD [])) with
  | none => rfl
  | some nb =>
    cases (splitOnChar ' ' fen.data)[2]? with
    | none => rfl
    | some c => rfl

theorem updateBoardFromFEN_keeps (s : GameSession) (fen : String) :
    (updateBoardFromFEN s fen).moveHistory = s.moveHistory ∧
    (updateBoardFromFEN s fen).currentTurn = s.currentTurn ∧
    (updateBoardFromFEN s fen).winner = s.winner ∧
    (updateBoardFromFEN s fen).endTime = s.endTime ∧
    (updateBoardFromFEN s fen).state.lastMove = s.state.lastMove ∧
    (updateBoardFromFEN s fen).state.check = s.state.check := by
  unfold updateBoardFromFEN
  dsimp only
  cases buildBoard8 (splitOnChar '/' ((splitOnChar ' ' fen.data).headD [])) with
  | none => exact ⟨rfl, rfl, rfl, rfl, rfl, rfl⟩
  | some nb =>
    cases (splitOnChar ' ' fen.data)[2]? with
    | none => exact ⟨rfl, rfl, rfl, rfl, rfl, rfl⟩
    | some c => exact ⟨rfl, rfl, rfl, rfl, rfl, rfl⟩

theorem applyMove_moveHistory (s : GameSession) (mr : MoveData) (pid : String) :
    (applyMove s mr pid).moveHistory = s.moveHistory := by
  unfold applyMove
  by_cases hv : mr.valid = true
  · rw [if_pos hv]
    dsimp only
    cases hf : mr.fenResult with
    | none => split_ifs <;> rfl
    | some fen =>
      have hk := (updateBoardFromFEN_keeps s fen).1
      split_ifs <;> (dsimp only; exact hk)
  · rw [if_neg hv]

theorem applyMove_currentTurn (s : GameSession) (mr : MoveData) (pid : String) :
    (applyMove s mr pid).currentTurn = s.currentTurn := by
  unfold applyMove
  by_cases hv : mr.valid = true
  · rw [if_pos hv]
    dsimp only
    cases hf : mr.fenResult with
    | none => split_ifs <;> rfl
    | some fen =>
      have hk := (updateBoardFromFEN_keeps s fen).2.1
      split_ifs <;> (dsimp only; exact hk)
  · rw [if_neg hv]

theorem applyMove_endTime (s : GameSession) (mr : MoveData) (pid : String) :
    (applyMove s mr pid).endTime = s.endTime := by
  unfold applyMove
  by_cases hv : mr.valid = true
  · rw [if_pos hv]
    dsimp only
    cases hf : mr.fenResult with
    | none => split_ifs <;> rfl
    | some fen =>
      have hk := (updateBoardFromFEN_keeps s fen).2.2.2.1
      split_ifs <;> (dsimp only; exact hk)
  · rw [if_neg hv]

theorem applyMove_winner_not_over (s : GameSession) (mr : MoveData) (pid : String)
    (hg : mr.gameOver = false) : (applyMove s mr pid).winner = s.winner := by
  unfold applyMove
  by_cases hv : mr.valid = true
  · rw [if_pos hv]
    dsimp only
    rw [if_neg (by rw [hg]; exact Bool.false_ne_true)]
    cases hf : mr.fenResult with
    | none => split_ifs <;> rfl
    | some fen =>
      have hk := (updateBoardFromFEN_keeps s fen).2.2.1
      split_ifs <;> (dsimp only; exact hk)
  · rw [if_neg hv]

theorem applyMove_winner_over (s : GameSession) (mr : MoveData) (pid : String)
    (hv : mr.valid = true) (hg : mr.gameOver = true) :
    (applyMove s mr pid).winner = mr.winner := by
  unfold applyMove
  rw [if_pos hv]
  dsimp only
  rw [if_pos hg]

theorem applyMove_lastMove (s : GameSession) (mr : MoveData) (pid : String)
    (hv : mr.valid = true) :
    (applyMove s mr pid).state.lastMove = mr.normalizedMove := by
  unfold applyMove
  rw [if_pos hv]
  dsimp only
  cases hf : mr.fenResult with
  | none => split_ifs <;> rfl
  | some fen => split_ifs <;> rfl

theorem applyMove_check (s : GameSession) (mr : MoveData) (pid : String)
    (hv : mr.valid = true) :
    (applyMove s mr pid).state.check = mr.checkPosition := by
  unfold applyMove
  rw [if_pos hv]
  dsimp only
  cases hf : mr.fenResult with
  | none => split_ifs <;> rfl
  | some fen => split_ifs <;> rfl

theorem applyMove_board (s : GameSession) (mr : MoveData) (pid : String)
    (hv : mr.valid = true) :
    (applyMove s mr pid).state.board =
      (match mr.fenResult with
       | some fen => boardAfterFEN s.state.board fen.data
       | none => s.state.board) := by
  unfold applyMove
  rw [if_pos hv]
  dsimp only
  cases hf : mr.fenResult with
  | none => split_ifs <;> rfl
  | some fen =>
    have hb := updateBoardFromFEN_board s fen
    split_ifs <;> (dsimp only; exact hb)

/-! The object spread in generateAIMove takes every applied field from the
validation result. -/

theorem mergeMove_valid (g v : MoveData) : (mergeMove g v).valid = v.valid := rfl

theorem mergeMove_normalizedMove (g v : MoveData) :
    (mergeMove g v).normalizedMove = v.normalizedMove := rfl

theorem mergeMove_fenResult (g v : MoveData) : (mergeMove g v).fenResult = v.fenResult := rfl

theorem mergeMove_checkPosition (g v : MoveData) :
    (mergeMove g v).checkPosition = v.checkPosition := rfl

theorem mergeMove_gameOver (g v : MoveData) : (mergeMove g v).gameOver = v.gameOver := rfl

theorem mergeMove_winner (g v : MoveData) : (mergeMove g v).winner = v.winner := rfl

theorem mergeMove_moveText (g v : MoveData) : (mergeMove g v).moveText = g.moveText := rfl

/-- A parseMoveResponse result that reports the game over always carries a
non-null winner: checkmate names the side to move and a draw names draw. -/
theorem parseMoveResponse_winner_isSome (t : Turn) (r : String)
    (h : (parseMoveResponse t r).gameOver = true) :
    (parseMoveResponse t r).winner.isSome = true := by
  unfold parseMoveResponse at h ⊢
  dsimp only at h ⊢
  generalize hm : (findBool "JAQUE_MATE:".data r.data == some true) = mb at h ⊢
  generalize hd : (findBool "TABLAS:".data r.data == some true) = db at h ⊢
  cases mb <;> cases db <;> simp_all

/-! Facts about the bounded generation loop of generateAIMove. -/

/-- The loop makes at most as many generation attempts as it has fuel; the
fuel is MAX_INTENTOS. -/
theorem aiLoop_genAttempts_le (s : GameSession) (oracle : Oracle) (fuel : Nat) :
    ∀ callIdx historial, (aiLoop s oracle callIdx fuel historial).genAttempts ≤ fuel := by
  induction fuel with
  | zero => intro c h; simp [aiLoop]
  | succ n ih =>
    intro c h
    simp only [aiLoop]
    split
    · split
      · dsimp only
        omega
      · dsimp only
        exact Nat.succ_le_succ (ih _ _)
    · dsimp only
      exact Nat.succ_le_succ (ih _ _)

/-- An accepted candidate always comes from a generation reply with a move
token whose re-validation (through the human-move path) was itself valid, and
it is exactly the spread of the two parses. -/
theorem aiLoop_found_elim (s : GameSession) (oracle : Oracle) (fuel : Nat) :
    ∀ callIdx historial mr, (aiLoop s oracle callIdx fuel historial).found = some mr →
    ∃ k hist g v,
      g = parseAIResponse s.currentTurn (oracle (buildAIPrompt s hist) k) ∧
      g.valid = true ∧
      v = validateAIMove s (g.moveText.getD "") oracle (k + 1) ∧
      v.valid = true ∧
      mr = mergeMove g v := by
  induction fuel with
  | zero => intro c h mr hf; simp [aiLoop] at hf
  | succ n ih =>
    intro c h mr hf
    simp only [aiLoop] at hf
    by_cases hgv : (parseAIResponse s.currentTurn (oracle (buildAIPrompt s h) c)).valid = true
    · rw [if_pos hgv] at hf
      by_cases hvv : (validateAIMove s ((parseAIResponse s.currentTurn
          (oracle (buildAIPrompt s h) c)).moveText.getD "") oracle (c + 1)).valid = true
      · rw [if_pos hvv] at hf
        dsimp only at hf
        injection hf with hf
        exact ⟨c, h, _, _, rfl, hgv, rfl, hvv, hf.symm⟩
      · rw [if_neg hvv] at hf
        dsimp only at hf
        exact ih _ _ _ hf
    · rw [if_neg hgv] at hf
      dsimp only at hf
      exact ih _ _ _ hf

/-- C2: the oracle-as-player loop makes at most 3 candidate-generation
attempts, and when all of them end without an independently validated
candidate the operation reports failure and returns the session exactly as it
was, so every field (moveHistory, currentTurn, winner, endTime, adapter state)
is unchanged. -/
theorem claim_C2_arbitration_exhausted (s : GameSession) (oracle : Oracle) (now : Nat) :
    (aiLoop s oracle 0 MAX_INTENTOS []).genAttempts ≤ 3 ∧
    ((!s.vsAI || !(isAITurn s) || isFinished s) = false →
      (aiLoop s oracle 0 MAX_INTENTOS []).found = none →
      generateAIMove s oracle now = (some { success := false, gameOver := false }, s)) := by
  constructor
  · exact aiLoop_genAttempts_le s oracle MAX_INTENTOS 0 []
  · intro hg hf
    unfold generateAIMove
    rw [hg]
    dsimp only
    rw [hf]
    rfl

/-- C2 witness: a session armed for the oracle move, an oracle that never
produces a move token; the loop exhausts and the session is returned intact. -/
theorem claim_C2_witness :
    (aiLoop sessAI oracleUseless 0 MAX_INTENTOS []).genAttempts ≤ 3 ∧
    generateAIMove sessAI oracleUseless 11 =
      (some { success := false, gameOver := false }, sessAI) :=
  ⟨(claim_C2_arbitration_exhausted sessAI oracleUseless 11).1,
   (claim_C2_arbitration_exhausted sessAI oracleUseless 11).2 (by decide) (by decide)⟩

/-- C10: generateAIMove is a guarded no-op: in a game that is not versus the
oracle, or out of player2's turn, or already finished, it returns null and the
session is untouched. -/
theorem claim_C10_guarded_noop (s : GameSession) (oracle : Oracle) (now : Nat)
    (h : s.vsAI = false ∨ s.currentTurn ≠ Turn.player2 ∨ isFinished s = true) :
    generateAIMove s oracle now = (none, s) := by
  unfold generateAIMove
  have hguard : (!s.vsAI || !(isAITurn s) || isFinished s) = true := by
    rcases h with h | h | h
    · simp [h, isAITurn]
    · simp [isAITurn, beq_iff_eq, h]
    · simp [h]
  rw [hguard]
  rfl

/-- C10 witness: a human-versus-human session, where generateAIMove declines
to act. -/
theorem claim_C10_witness :
    sessHuman.vsAI = false ∧
    generateAIMove sessHuman oracleUseless 4 = (none, sessHuman) :=
  ⟨by decide, claim_C10_guarded_noop sessHuman oracleUseless 4 (Or.inl (by decide))⟩

/-- C9: the reply parsers are total functions of the reply text, and default
to an invalid result instead of failing: a reply in which the validity field
matches nowhere parses as not valid, and a generation reply without a move
token parses as not valid. -/
theorem claim_C9_parsers_default_invalid (t : Turn) (r : String) :
    (findBool "MOVIMIENTO_VALIDO:".data r.data = none →
      (parseMoveResponse t r).valid = false) ∧
    (findMove "MOVIMIENTO:".data r.data = none →
      (parseAIResponse t r).valid = false) := by
  constructor
  · intro h
    unfold parseMoveResponse
    dsimp only
    rw [h]
    rfl
  · intro h
    unfold parseAIResponse
    dsimp only
    rw [h]

theorem switchTurn_ne (t : Turn) : switchTurn t ≠ t := by
  cases t <;> decide

/-- C6: on a non-finished session, a processMove call by the player whose turn
it is, whose oracle reply parses as valid and non-terminal, succeeds, appends
exactly one history entry carrying the reply's normalized move, and flips
currentTurn to the other player, so successive successful non-terminal calls
strictly alternate the turn. -/
theorem claim_C6_alternation (s : GameSession) (pid mt : String) (oracle : Oracle)
    (now : Nat) (hfin : isFinished s = false) (hturn : isPlayerTurn s pid = true)
    (hval : (parseMoveResponse s.currentTurn (oracle (buildMovePrompt s pid mt) 0)).valid
      = true)
    (hgo : (parseMoveResponse s.currentTurn (oracle (buildMovePrompt s pid mt) 0)).gameOver
      = false) :
    (processMove s pid mt oracle now).1 = { success := true, gameOver := false } ∧
    (processMove s pid mt oracle now).2.moveHistory = s.moveHistory ++
      [{ player := pid, move := mt,
         normalizedMove := (parseMoveResponse s.currentTurn
           (oracle (buildMovePrompt s pid mt) 0)).normalizedMove,
         timestamp := now }] ∧
    (processMove s pid mt oracle now).2.currentTurn = switchTurn s.currentTurn ∧
    (processMove s pid mt oracle now).2.currentTurn ≠ s.currentTurn := by
  unfold processMove
  rw [hfin, hturn]
  simp only [Bool.false_eq_true, Bool.true_eq_false, if_false]
  rw [if_pos hval, if_pos hgo]
  refine ⟨by rw [hgo], ?_, ?_, ?_⟩
  · rw [applyMove_moveHistory]
  · rw [applyMove_currentTurn]
  · rw [applyMove_currentTurn]
    exact switchTurn_ne s.currentTurn

/-- C6 witness: the spec scenario.  A fresh session, Alice submits e2e4, the
oracle validates it with a resulting position; the history gains exactly the
e2e4 entry and the turn passes to player2. -/
theorem claim_C6_witness :
    (processMove sessHuman "u1" "e2e4" oracleE2E4 7).1 =
      { success := true, gameOver := false } ∧
    (processMove sessHuman "u1" "e2e4" oracleE2E4 7).2.moveHistory =
      sessHuman.moveHistory ++
      [{ player := "u1", move := "e2e4",
         normalizedMove := (parseMoveResponse sessHuman.currentTurn
           (oracleE2E4 (buildMovePrompt sessHuman "u1" "e2e4") 0)).normalizedMove,
         timestamp := 7 }] ∧
    (processMove sessHuman "u1" "e2e4" oracleE2E4 7).2.currentTurn =
      switchTurn sessHuman.currentTurn ∧
    (processMove sessHuman "u1" "e2e4" oracleE2E4 7).2.currentTurn ≠
      sessHuman.currentTurn :=
  claim_C6_alternation sessHuman "u1" "e2e4" oracleE2E4 7
    (by decide) (by decide) (by decide) (by decide)

/-- C8: surrender by a participant of a non-finished session appends one
surrender history entry, names the other player winner, sets the end time and
leaves the session finished; on a finished session it mutates nothing and
reports the game already over. -/
theorem claim_C8_surrender (s : GameSession) (pid : String) (now : Nat) :
    (isFinished s = false → (pid = s.player1.id ∨ pid = s.player2.id) →
      (surrender s pid now).1 = { success := true, gameOver := true } ∧
      (surrender s pid now).2.moveHistory = s.moveHistory ++
        [{ player := pid, move := "surrender", normalizedMove := none, timestamp := now }] ∧
      (surrender s pid now).2.winner =
        some (if pid == s.player1.id then GWinner.player2 else GWinner.player1) ∧
      (surrender s pid now).2.endTime = some now ∧
      isFinished (surrender s pid now).2 = true) ∧
    (isFinished s = true →
      surrender s pid now = ({ success := false, gameOver := true }, s)) := by
  constructor
  · intro hfin hmem
    unfold surrender
    rw [hfin]
    simp only [Bool.false_eq_true, if_false]
    rw [if_neg (by
      rcases hmem with h | h
      · exact fun hc => hc.1 h
      · exact fun hc => hc.2 h)]
    exact ⟨rfl, rfl, rfl, rfl, rfl⟩
  · intro hfin
    unfold surrender
    rw [hfin]
    rfl

/-- C8 witness: Bob surrenders a fresh game, making Alice the winner; a second
surrender on an already finished session changes nothing. -/
theorem claim_C8_witness :
    ((surrender sessHuman "u2" 5).1 = { success := true, gameOver := true } ∧
     (surrender sessHuman "u2" 5).2.moveHistory = sessHuman.moveHistory ++
       [{ player := "u2", move := "surrender", normalizedMove := none, timestamp := 5 }] ∧
     (surrender sessHuman "u2" 5).2.winner =
       some (if "u2" == sessHuman.player1.id then GWinner.player2 else GWinner.player1) ∧
     (surrender sessHuman "u2" 5).2.endTime = some 5 ∧
     isFinished (surrender sessHuman "u2" 5).2 = true) ∧
    surrender sessDone "u1" 6 = ({ success := false, gameOver := true }, sessDone) :=
  ⟨(claim_C8_surrender sessHuman "u2" 5).1 (by decide) (Or.inr (by decide)),
   (claim_C8_surrender sessDone "u1" 6).2 (by decide)⟩

/-- C4: winner is non-null exactly when endTime is non-null, after
initialisation and across every completed processMove, generateAIMove and
surrender call. -/
theorem claim_C4_winner_iff_endTime :
    (∀ p1i p1n p2i p2n vsai now, winnerEndInv (initGame p1i p1n p2i p2n vsai now)) ∧
    (∀ s pid mt oracle now, winnerEndInv s →
      winnerEndInv (processMove s pid mt oracle now).2) ∧
    (∀ s oracle now, winnerEndInv s → winnerEndInv (generateAIMove s oracle now).2) ∧
    (∀ s pid now, winnerEndInv s → winnerEndInv (surrender s pid now).2) := by
  refine ⟨?_, ?_, ?_, ?_⟩
  · intro p1i p1n p2i p2n vsai now
    rfl
  · intro s pid mt oracle now hinv
    unfold processMove
    cases hfin : isFinished s with
    | true =>
      rw [if_pos rfl]
      exact hinv
    | false =>
      simp only [Bool.false_eq_true, if_false]
      cases hpt : isPlayerTurn s pid with
      | false =>
        rw [if_pos rfl]
        exact hinv
      | true =>
        simp only [Bool.true_eq_false, if_false]
        by_cases hval : (parseMoveResponse s.currentTurn
            (oracle (buildMovePrompt s pid mt) 0)).valid = true
        · rw [if_pos hval]
          by_cases hgo : (parseMoveResponse s.currentTurn
              (oracle (buildMovePrompt s pid mt) 0)).gameOver = false
          · rw [if_pos hgo]
            unfold winnerEndInv
            rw [show ∀ x : GameSession, ({ x with
                currentTurn := switchTurn x.currentTurn } : GameSession).winner = x.winner
              from fun x => rfl]
            rw [applyMove_winner_not_over _ _ _ hgo, applyMove_endTime]
            exact hinv
          · rw [if_neg hgo]
            have hgo2 : (parseMoveResponse s.currentTurn
                (oracle (buildMovePrompt s pid mt) 0)).gameOver = true := by
              cases hx : (parseMoveResponse s.currentTurn
                  (oracle (buildMovePrompt s pid mt) 0)).gameOver
              · exact absurd hx hgo
              · rfl
            unfold winnerEndInv
            rw [parseMoveResponse_winner_isSome _ _ hgo2]
            rfl
        · rw [if_neg hval]
          exact hinv
  · intro s oracle now hinv
    unfold generateAIMove
    cases hg : (!s.vsAI || !(isAITurn s) || isFinished s) with
    | true =>
      rw [if_pos rfl]
      exact hinv
    | false =>
      simp only [Bool.false_eq_true, if_false]
      cases hf : (aiLoop s oracle 0 MAX_INTENTOS []).found with
      | none => exact hinv
      | some mr =>
        dsimp only
        obtain ⟨k, hist, g, v, hgdef, hgv, hvdef, hvv, hmr⟩ :=
          aiLoop_found_elim s oracle MAX_INTENTOS 0 [] mr hf
        by_cases hgo : mr.gameOver = false
        · rw [if_pos hgo]
          unfold winnerEndInv
          rw [show ∀ x : GameSession, ({ x with
              currentTurn := switchTurn x.currentTurn } : GameSession).winner = x.winner
            from fun x => rfl]
          rw [applyMove_winner_not_over _ _ _ hgo, applyMove_endTime]
          exact hinv
        · rw [if_neg hgo]
          have hgo2 : mr.gameOver = true := by
            cases hx : mr.gameOver
            · exact absurd hx hgo
            · rfl
          subst hmr
          rw [mergeMove_gameOver] at hgo2
          unfold winnerEndInv
          have hveq : v = parseMoveResponse s.currentTurn
              (oracle (buildMovePrompt s s.player2.id (g.moveText.getD "")) (k + 1)) := hvdef
          rw [mergeMove_winner, hveq]
          rw [parseMoveResponse_winner_isSome _ _ (by rw [← hveq]; exact hgo2)]
          rfl
  · intro s pid now hinv
    unfold surrender
    cases hfin : isFinished s with
    | true =>
      rw [if_pos rfl]
      exact hinv
    | false =>
      simp only [Bool.false_eq_true, if_false]
      by_cases hmem : pid ≠ s.player1.id ∧ pid ≠ s.player2.id
      · rw [if_pos hmem]
        exact hinv
      · rw [if_neg hmem]
        rfl

/-- C4 witness: the invariant holds on a fresh session and is carried through
one call of each operation. -/
theorem claim_C4_witness :
    winnerEndInv (initGame "u1" "Alice" "u2" "Bob" false 0) ∧
    winnerEndInv (processMove sessHuman "u1" "e2e4" oracleE2E4 7).2 ∧
    winnerEndInv (generateAIMove sessAI oracleUseless 11).2 ∧
    winnerEndInv (surrender sessHuman "u2" 5).2 :=
  ⟨claim_C4_winner_iff_endTime.1 "u1" "Alice" "u2" "Bob" false 0,
   claim_C4_winner_iff_endTime.2.1 sessHuman "u1" "e2e4" oracleE2E4 7 rfl,
   claim_C4_winner_iff_endTime.2.2.1 sessAI oracleUseless 11 rfl,
   claim_C4_winner_iff_endTime.2.2.2 sessHuman "u2" 5 rfl⟩

/-- C1: whenever an oracle-as-player turn applies a generated candidate, some
generation reply supplied the move token, the candidate went through
validateAIMove, which is by definition the human-submission path (a
buildMovePrompt prompt parsed by parseMoveResponse), that validation reply was
itself valid, and every field actually applied to the session, the normalized
move in the history entry, lastMove, check square, resulting board, and the
game-over and winner outcome, comes from the validation reply, never from the
candidate's self-reported fields. -/
theorem claim_C1_validation_authoritative (s : GameSession) (oracle : Oracle) (now : Nat)
    (res : MoveOutcome) (s' : GameSession)
    (hrun : generateAIMove s oracle now = (some res, s'))
    (hsucc : res.success = true) :
    ∃ k hist g v,
      g = parseAIResponse s.currentTurn (oracle (buildAIPrompt s hist) k) ∧
      g.valid = true ∧
      v = validateAIMove s (g.moveText.getD "") oracle (k + 1) ∧
      v = parseMoveResponse s.currentTurn
        (oracle (buildMovePrompt s s.player2.id (g.moveText.getD "")) (k + 1)) ∧
      v.valid = true ∧
      s'.moveHistory = s.moveHistory ++
        [{ player := s.player2.id, move := g.moveText.getD "",
           normalizedMove := v.normalizedMove, timestamp := now }] ∧
      s'.state.lastMove = v.normalizedMove ∧
      s'.state.check = v.checkPosition ∧
      s'.state.board = (match v.fenResult with
        | some fen => boardAfterFEN s.state.board fen.data
        | none => s.state.board) ∧
      res.gameOver = v.gameOver ∧
      (v.gameOver = false → s'.winner = s.winner ∧
        s'.currentTurn = switchTurn s.currentTurn) ∧
      (v.gameOver = true → s'.winner = v.winner ∧ s'.endTime = some now) := by
  unfold generateAIMove at hrun
  by_cases hg : (!s.vsAI || !(isAITurn s) || isFinished s) = true
  · rw [if_pos hg] at hrun
    have := congrArg Prod.fst hrun
    simp at this
  · rw [if_neg hg] at hrun
    dsimp only at hrun
    cases hf : (aiLoop s oracle 0 MAX_INTENTOS []).found with
    | none =>
      rw [hf] at hrun
      dsimp only at hrun
      injection hrun with h1 h2
      injection h1 with h1
      rw [← h1] at hsucc
      simp at hsucc
    | some mr =>
      rw [hf] at hrun
      dsimp only at hrun
      obtain ⟨k, hist, g, v, hgdef, hgv, hvdef, hvv, hmr⟩ :=
        aiLoop_found_elim s oracle MAX_INTENTOS 0 [] mr hf
      subst hmr
      injection hrun with h1 h2
      injection h1 with h1
      subst h1
      subst h2
      have hval : (mergeMove g v).valid = true := by
        rw [mergeMove_valid]
        exact hvv
      refine ⟨k, hist, g, v, hgdef, hgv, hvdef, hvdef, hvv, ?_, ?_, ?_, ?_, rfl, ?_, ?_⟩
      · by_cases hgo : (mergeMove g v).gameOver = false
        · rw [if_pos hgo, show ∀ x : GameSession, ({ x with
              currentTurn := switchTurn x.currentTurn } : GameSession).moveHistory
              = x.moveHistory from fun x => rfl, applyMove_moveHistory]
          rfl
        · rw [if_neg hgo]
          rw [show ∀ x : GameSession, ∀ w t, ({ x with winner := w, endTime := t }
            : GameSession).moveHistory = x.moveHistory from fun x w t => rfl,
            applyMove_moveHistory]
          rfl
      · by_cases hgo : (mergeMove g v).gameOver = false
        · rw [if_pos hgo]
          exact applyMove_lastMove _ _ _ hval
        · rw [if_neg hgo]
          exact applyMove_lastMove _ _ _ hval
      · by_cases hgo : (mergeMove g v).gameOver = false
        · rw [if_pos hgo]
          exact applyMove_check _ _ _ hval
        · rw [if_neg hgo]
          exact applyMove_check _ _ _ hval
      · by_cases hgo : (mergeMove g v).gameOver = false
        · rw [if_pos hgo]
          exact applyMove_board _ _ _ hval
        · rw [if_neg hgo]
          exact applyMove_board _ _ _ hval
      · intro hvgo
        have hgo : (mergeMove g v).gameOver = false := by
          rw [mergeMove_gameOver]
          exact hvgo
        rw [if_pos hgo]
        constructor
        · rw [show ∀ x : GameSession, ({ x with
            currentTurn := switchTurn x.currentTurn } : GameSession).winner = x.winner
            from fun x => rfl, applyMove_winner_not_over _ _ _ hgo]
        · rw [show ∀ x : GameSession, ({ x with
            currentTurn := switchTurn x.currentTurn } : GameSession).currentTurn
            = switchTurn x.currentTurn from fun x => rfl, applyMove_currentTurn]
      · intro hvgo
        have hgo : ¬ (mergeMove g v).gameOver = false := by
          rw [mergeMove_gameOver, hvgo]
          simp
        rw [if_neg hgo]
        exact ⟨rfl, rfl⟩

/-- C1 witness: the generation reply brags a checkmate and a cleared board;
the validation reply disagrees on every termination field and carries the real
position.  The applied session takes the validation values. -/
theorem claim_C1_witness :
    ∃ k hist g v,
      g = parseAIResponse sessAI.currentTurn (oracleSplitBrain (buildAIPrompt sessAI hist) k) ∧
      g.valid = true ∧
      v = validateAIMove sessAI (g.moveText.getD "") oracleSplitBrain (k + 1) ∧
      v = parseMoveResponse sessAI.currentTurn
        (oracleSplitBrain (buildMovePrompt sessAI sessAI.player2.id (g.moveText.getD "")) (k + 1)) ∧
      v.valid = true ∧
      (generateAIMove sessAI oracleSplitBrain 9).2.moveHistory = sessAI.moveHistory ++
        [{ player := sessAI.player2.id, move := g.moveText.getD "",
           normalizedMove := v.normalizedMove, timestamp := 9 }] ∧
      (generateAIMove sessAI oracleSplitBrain 9).2.state.lastMove = v.normalizedMove ∧
      (generateAIMove sessAI oracleSplitBrain 9).2.state.check = v.checkPosition ∧
      (generateAIMove sessAI oracleSplitBrain 9).2.state.board = (match v.fenResult with
        | some fen => boardAfterFEN sessAI.state.board fen.data
        | none => sessAI.state.board) ∧
      ((generateAIMove sessAI oracleSplitBrain 9).1.getD default).gameOver = v.gameOver ∧
      (v.gameOver = false → (generateAIMove sessAI oracleSplitBrain 9).2.winner = sessAI.winner ∧
        (generateAIMove sessAI oracleSplitBrain 9).2.currentTurn = switchTurn sessAI.currentTurn) ∧
      (v.gameOver = true → (generateAIMove sessAI oracleSplitBrain 9).2.winner = v.winner ∧
        (generateAIMove sessAI oracleSplitBrain 9).2.endTime = some 9) :=
  claim_C1_validation_authoritative sessAI oracleSplitBrain 9
    ((generateAIMove sessAI oracleSplitBrain 9).1.getD default)
    (generateAIMove sessAI oracleSplitBrain 9).2
    (by decide) (by decide)

/-- C3 counterexample: an oracle reply that asserts validity but omits the
FEN_RESULTANTE field is not treated as invalid by the code.  On a fresh
session the move is accepted: processMove reports success, appends the Move,
and flips the turn, contradicting the claim that it is rejected with no Move
appended. -/
theorem claim_C3_counterexample :
    (parseMoveResponse sessHuman.currentTurn respNoFen).valid = true ∧
    (parseMoveResponse sessHuman.currentTurn respNoFen).fenResult = none ∧
    (processMove sessHuman "u1" "e2e4" oracleNoFen 5).1.success = true ∧
    (processMove sessHuman "u1" "e2e4" oracleNoFen 5).2.moveHistory.length = 1 ∧
    (processMove sessHuman "u1" "e2e4" oracleNoFen 5).2.currentTurn = Turn.player2 := by
  decide

/-- C3 (amended): a validity-asserting reply with no FEN_RESULTANTE is still
applied: the Move is appended and the turn flips, and only the board grid is
left unchanged because updateBoardFromFEN is skipped. -/
theorem claim_C3_missing_fen_still_applied (s : GameSession) (pid mt : String)
    (oracle : Oracle) (now : Nat)
    (hfin : isFinished s = false) (hturn : isPlayerTurn s pid = true)
    (hval : (parseMoveResponse s.currentTurn (oracle (buildMovePrompt s pid mt) 0)).valid
      = true)
    (hfen : (parseMoveResponse s.currentTurn (oracle (buildMovePrompt s pid mt) 0)).fenResult
      = none)
    (hgo : (parseMoveResponse s.currentTurn (oracle (buildMovePrompt s pid mt) 0)).gameOver
      = false) :
    (processMove s pid mt oracle now).1 = { success := true, gameOver := false } ∧
    (processMove s pid mt oracle now).2.moveHistory = s.moveHistory ++
      [{ player := pid, move := mt,
         normalizedMove := (parseMoveResponse s.currentTurn
           (oracle (buildMovePrompt s pid mt) 0)).normalizedMove,
         timestamp := now }] ∧
    (processMove s pid mt oracle now).2.state.board = s.state.board ∧
    (processMove s pid mt oracle now).2.currentTurn = switchTurn s.currentTurn := by
  unfold processMove
  rw [hfin, hturn]
  simp only [Bool.false_eq_true, Bool.true_eq_false, if_false]
  rw [if_pos hval, if_pos hgo]
  refine ⟨by rw [hgo], ?_, ?_, ?_⟩
  · rw [applyMove_moveHistory]
  · rw [show ∀ x : GameSession, ({ x with
      currentTurn := switchTurn x.currentTurn } : GameSession).state = x.state
      from fun x => rfl]
    rw [applyMove_board _ _ _ hval, hfen]
  · rw [applyMove_currentTurn]

/-- C3 witness for the amended statement, on the counterexample scenario. -/
theorem claim_C3_witness :
    (processMove sessHuman "u1" "e2e4" oracleNoFen 5).1 =
      { success := true, gameOver := false } ∧
    (processMove sessHuman "u1" "e2e4" oracleNoFen 5).2.moveHistory =
      sessHuman.moveHistory ++
      [{ player := "u1", move := "e2e4",
         normalizedMove := (parseMoveResponse sessHuman.currentTurn
           (oracleNoFen (buildMovePrompt sessHuman "u1" "e2e4") 0)).normalizedMove,
         timestamp := 5 }] ∧
    (processMove sessHuman "u1" "e2e4" oracleNoFen 5).2.state.board =
      sessHuman.state.board ∧
    (processMove sessHuman "u1" "e2e4" oracleNoFen 5).2.currentTurn =
      switchTurn sessHuman.currentTurn :=
  claim_C3_missing_fen_still_applied sessHuman "u1" "e2e4" oracleNoFen 5
    (by decide) (by decide) (by decide) (by decide) (by decide)

/-- The creation tail never reports a state conflict: it answers unknownGame
or ok. -/
theorem startGameCreate_not_active (m : GameManager)
    (channelId userId username gameType : String) (opponent : Option Opponent) (now : Nat) :
    (startGameCreate m channelId userId username gameType opponent now).1 ≠
      StartResult.alreadyActive := by
  intro h
  unfold startGameCreate at h
  dsimp only at h
  cases hb : GAME_TYPES.contains (toLowerStr gameType) <;> rw [hb] at h <;> simp at h

/-- On a registered game type the creation tail succeeds and installs the
freshly initialised session under the channel. -/
theorem startGameCreate_ok (m : GameManager)
    (channelId userId username gameType : String) (opponent : Option Opponent) (now : Nat)
    (hcont : GAME_TYPES.contains (toLowerStr gameType) = true) :
    ∃ g, (startGameCreate m channelId userId username gameType opponent now).1 =
        StartResult.ok g ∧
      lookupSession (startGameCreate m channelId userId username gameType opponent now).2
        channelId = some g ∧
      g = initGame userId username
        (match opponent with | none => "AI" | some o => o.id)
        (match opponent with | none => "IA" | some o => o.username)
        opponent.isNone now := by
  unfold startGameCreate
  dsimp only
  rw [hcont]
  simp only [Bool.not_true, Bool.false_eq_true, if_false]
  refine ⟨_, rfl, ?_, rfl⟩
  unfold saveGameState
  rw [show ∀ a b c d e f, isFinished (initGame a b c d e f) = false
    from fun a b c d e f => rfl]
  simp only [Bool.false_eq_true, if_false]
  unfold lookupSession setSession
  simp [List.find?]

/-- C7: startGame fails with the state-conflict error exactly when an
unfinished session occupies the channel; when the channel's session is
finished or absent and the requested type is registered, it succeeds and
installs a brand-new session for the channel. -/
theorem claim_C7_startGame (m : GameManager)
    (channelId userId username gameType : String) (opponent : Option Opponent) (now : Nat) :
    ((startGame m channelId userId username gameType opponent now).1 =
        StartResult.alreadyActive ↔
      ∃ g, lookupSession m channelId = some g ∧ isFinished g = false) ∧
    ((lookupSession m channelId).all isFinished = true →
      GAME_TYPES.contains (toLowerStr gameType) = true →
      ∃ g, (startGame m channelId userId username gameType opponent now).1 =
          StartResult.ok g ∧
        lookupSession (startGame m channelId userId username gameType opponent now).2
          channelId = some g ∧
        g.moveHistory = [] ∧ g.winner = none ∧ g.endTime = none ∧
        g.currentTurn = Turn.player1 ∧ g.startTime = now ∧
        g.state = initChessState ∧ g.vsAI = opponent.isNone) := by
  constructor
  · constructor
    · intro h
      unfold startGame at h
      cases hl : lookupSession m channelId with
      | none =>
        rw [hl] at h
        exact absurd h (startGameCreate_not_active m channelId userId username
          gameType opponent now)
      | some g =>
        rw [hl] at h
        dsimp only at h
        by_cases hfin : isFinished g = false
        · exact ⟨g, rfl, hfin⟩
        · rw [if_neg hfin] at h
          exact absurd h (startGameCreate_not_active m channelId userId username
            gameType opponent now)
    · rintro ⟨g, hl, hfin⟩
      unfold startGame
      rw [hl]
      dsimp only
      rw [if_pos hfin]
  · intro hall hcont
    have hok := startGameCreate_ok m channelId userId username gameType opponent now hcont
    obtain ⟨g, hres, hlook, hgdef⟩ := hok
    unfold startGame
    cases hl : lookupSession m channelId with
    | none =>
      subst hgdef
      exact ⟨_, hres, hlook, rfl, rfl, rfl, rfl, rfl, rfl, rfl⟩
    | some gOld =>
      have hfin : isFinished gOld = true := by
        rw [hl] at hall
        simpa [Option.all] using hall
      dsimp only
      rw [if_neg (by rw [hfin]; simp)]
      subst hgdef
      exact ⟨_, hres, hlook, rfl, rfl, rfl, rfl, rfl, rfl, rfl⟩

/-- C7 witness: the channel holds a finished session, so a new chess game (the
registered type under its English alias) starts and replaces it. -/
theorem claim_C7_witness :
    ((startGame mgrDone "chan1" "u9" "Eve" "Chess" none 20).1 =
        StartResult.alreadyActive ↔
      ∃ g, lookupSession mgrDone "chan1" = some g ∧ isFinished g = false) ∧
    ∃ g, (startGame mgrDone "chan1" "u9" "Eve" "Chess" none 20).1 =
        StartResult.ok g ∧
      lookupSession (startGame mgrDone "chan1" "u9" "Eve" "Chess" none 20).2
        "chan1" = some g ∧
      g.moveHistory = [] ∧ g.winner = none ∧ g.endTime = none ∧
      g.currentTurn = Turn.player1 ∧ g.startTime = 20 ∧
      g.state = initChessState ∧ g.vsAI = (none : Option Opponent).isNone :=
  ⟨(claim_C7_startGame mgrDone "chan1" "u9" "Eve" "Chess" none 20).1,
   (claim_C7_startGame mgrDone "chan1" "u9" "Eve" "Chess" none 20).2
     (by decide) (by decide)⟩

/-- C9 witness: a free-text reply with no labelled fields at all parses as
invalid in both parsers. -/
theorem claim_C9_witness :
    findBool "MOVIMIENTO_VALIDO:".data "hola mundo".data = none ∧
    (parseMoveResponse Turn.player1 "hola mundo").valid = false ∧
    findMove "MOVIMIENTO:".data "hola mundo".data = none ∧
    (parseAIResponse Turn.player1 "hola mundo").valid = false :=
  ⟨by decide,
   (claim_C9_parsers_default_invalid Turn.player1 "hola mundo").1 (by decide),
   by decide,
   (claim_C9_parsers_default_invalid Turn.player1 "hola mundo").2 (by decide)⟩

end DiscordChess
